import Mathlib

/-!
Verification development for the manifest repair-and-normalize pipeline
(`fix_manifest.py`).  The pipeline's data is shallowly embedded: Python
strings are lists of Unicode code points (`PyStr`), byte buffers are lists
of byte values, and parsed JSON values are the mutual inductive
`JVal`/`JArr`/`JObj` (objects keep insertion order, as Python dicts do).
Machine-level caveats of the embedding, each noted at its definition:
numbers are modelled as arbitrary-precision integers (Python ints; JSON
floating-point literals are outside the model), `str.lower`/`str` use
ASCII-faithful renderings, and `dict()` construction supports only
string-keyed results.
-/

/-- A Python `str`, as its list of Unicode code points. -/
abbrev PyStr := List Nat

/-- Membership in the control ranges of `CTRL_CHARS_RE` and of the byte-level
substitution in `preclean_bytes`/`main`: 0x00-0x08, 0x0b, 0x0c, 0x0e-0x1f. -/
def isCtrlChar (c : Nat) : Bool :=
  (c ≤ 8) || c == 11 || c == 12 || (14 ≤ c && c ≤ 31)

/-- Model of `CTRL_CHARS_RE.sub("", s)` — drop the disallowed control characters.
Also models `re.sub(b"[\x00-\x08\x0b\x0c\x0e-\x1f]", b"", data)` on byte
buffers, whose character class is the same. -/
def ctrlStrip (s : PyStr) : PyStr := s.filter (fun c => !isCtrlChar c)

/-- Python whitespace, as used by `str.split()`/`str.strip()`:
tab through carriage return, the C1 separators 0x1c-0x1f, space, NEL,
no-break space and the Unicode space series. -/
def pyIsSpace (c : Nat) : Bool :=
  (9 ≤ c && c ≤ 13) || (28 ≤ c && c ≤ 31) || c == 32 || c == 133 || c == 160 ||
  c == 0x1680 || (0x2000 ≤ c && c ≤ 0x200a) || c == 0x2028 || c == 0x2029 ||
  c == 0x202f || c == 0x205f || c == 0x3000

/-- Python `str.strip()` with no argument. -/
def pyStrip (s : PyStr) : PyStr :=
  ((s.dropWhile pyIsSpace).reverse.dropWhile pyIsSpace).reverse

/-- Worker for `pySplitWs`; the accumulator holds the current word reversed. -/
def splitWsGo : PyStr → PyStr → List PyStr
  | [], acc => if acc.isEmpty then [] else [acc.reverse]
  | c :: rest, acc =>
    if pyIsSpace c then
      if acc.isEmpty then splitWsGo rest [] else acc.reverse :: splitWsGo rest []
    else splitWsGo rest (c :: acc)

/-- Python `str.split()` with no argument: split on whitespace runs,
producing no empty pieces. -/
def pySplitWs (s : PyStr) : List PyStr := splitWsGo s []

/-- Worker for `splitSeps`. -/
def splitSepsGo : PyStr → PyStr → List PyStr
  | [], acc => [acc.reverse]
  | c :: rest, acc =>
    if c == 44 || c == 47 || c == 124 || c == 59 then
      acc.reverse :: splitSepsGo rest []
    else splitSepsGo rest (c :: acc)

/-- Model of `re.split(r"[,/|;]", s)`: split at every comma, slash, pipe or
semicolon, keeping empty pieces. -/
def splitSeps (s : PyStr) : List PyStr := splitSepsGo s []

/-- Python `str.lower()`, rendered for the ASCII letters (the repository's
slug bases are ASCII; non-ASCII case mappings are outside the model). -/
def pyLower (s : PyStr) : PyStr :=
  s.map (fun c => if 65 ≤ c && c ≤ 90 then c + 32 else c)

/-- Lower-case ASCII letter or digit — the class kept by the slug rewrite
`re.sub(r"[^a-z0-9]+", "-", base)`. -/
def isLowerAlnum (c : Nat) : Bool := (97 ≤ c && c ≤ 122) || (48 ≤ c && c ≤ 57)

/-- Worker for `collapseNonAlnum`; the flag records whether the previous
character was part of a non-alphanumeric run already replaced. -/
def collapseGo : Bool → PyStr → PyStr
  | _, [] => []
  | inRun, c :: rest =>
    if isLowerAlnum c then c :: collapseGo false rest
    else if inRun then collapseGo true rest
    else 45 :: collapseGo true rest

/-- Model of `re.sub(r"[^a-z0-9]+", "-", base)`: replace each run of
non-alphanumeric characters by a single hyphen. -/
def collapseNonAlnum (s : PyStr) : PyStr := collapseGo false s

/-- Python `str.strip("-")`. -/
def stripHyphens (s : PyStr) : PyStr :=
  ((s.dropWhile (· == 45)).reverse.dropWhile (· == 45)).reverse

/-- Decimal rendering of a natural number. -/
def natStr (n : Nat) : PyStr := (Nat.toDigits 10 n).map Char.toNat

/-- Python `str(i)` for an integer. -/
def intStr (n : Int) : PyStr :=
  if n < 0 then 45 :: natStr n.natAbs else natStr n.toNat

/-- Value of a decimal digit character, if it is one. -/
def digitVal (c : Nat) : Option Nat :=
  if 48 ≤ c && c ≤ 57 then some (c - 48) else none

/-- Worker for `pyDigits`: digits with single underscores allowed between
digits, as Python's `int()` literal grammar has since 3.6. -/
def parseDigitsGo : PyStr → Nat → Option Nat
  | [], acc => some acc
  | c :: rest, acc =>
    match digitVal c with
    | some d => parseDigitsGo rest (acc * 10 + d)
    | none =>
      if c == 95 then
        match rest with
        | d :: rest2 =>
          match digitVal d with
          | some dv => parseDigitsGo rest2 (acc * 10 + dv)
          | none => none
        | [] => none
      else none

/-- Digit run for `int()`: must start with a digit; underscores may only
separate digits. -/
def pyDigits (s : PyStr) : Option Nat :=
  match s with
  | [] => none
  | c :: _ =>
    match digitVal c with
    | some _ => parseDigitsGo s 0
    | none => none

/-- Python `int(s)` on a string: surrounding whitespace stripped, optional
sign, decimal digits. -/
def pyIntOfStr (s : PyStr) : Option Int :=
  match pyStrip s with
  | 43 :: rest => (pyDigits rest).map (fun n => (n : Int))
  | 45 :: rest => (pyDigits rest).map (fun n => -(n : Int))
  | t => (pyDigits t).map (fun n => (n : Int))

/-- Value of a hexadecimal digit character, if it is one. -/
def hexVal (c : Nat) : Option Nat :=
  if 48 ≤ c && c ≤ 57 then some (c - 48)
  else if 97 ≤ c && c ≤ 102 then some (c - 87)
  else if 65 ≤ c && c ≤ 70 then some (c - 55)
  else none

/-- Lower-case hexadecimal digit character for a value below 16. -/
def hexDigitChar (n : Nat) : Nat := if n < 10 then 48 + n else 87 + n

/-- Code points of a Lean string literal, for writing concrete `PyStr`s. -/
def strB (s : String) : PyStr := s.data.map Char.toNat

/-- Join a list of strings with a separator, Python `sep.join(...)`. -/
def joinWith (sep : PyStr) : List PyStr → PyStr
  | [] => []
  | [p] => p
  | p :: rest => p ++ sep ++ joinWith sep rest

/-! ## Parsed JSON values

`JVal` is the value tree produced by the structural parser (`RawManifest`
in the spec).  Arrays and objects are mutual inductives so that every
pipeline function is structurally recursive and kernel-evaluable.
Numbers are Python integers; JSON floating-point literals are outside the
model (no claim depends on them). -/

mutual
inductive JVal where
  | jnull : JVal
  | jbool : Bool → JVal
  | jint : Int → JVal
  | jstr : PyStr → JVal
  | jarr : JArr → JVal
  | jobj : JObj → JVal

inductive JArr where
  | nil : JArr
  | cons : JVal → JArr → JArr

inductive JObj where
  | nil : JObj
  | cons : PyStr → JVal → JObj → JObj
end

deriving instance DecidableEq for JVal

deriving instance DecidableEq for JArr

deriving instance DecidableEq for JObj

deriving instance DecidableEq for Except

/-- Build a `JArr` from a list literal. -/
def arrOf : List JVal → JArr
  | [] => .nil
  | x :: xs => .cons x (arrOf xs)

/-- Build a `JObj` from a list of key-value pairs. -/
def objOf : List (PyStr × JVal) → JObj
  | [] => .nil
  | kv :: t => .cons kv.1 kv.2 (objOf t)

/-- The elements of a `JArr` as a list. -/
def arrList : JArr → List JVal
  | .nil => []
  | .cons x xs => x :: arrList xs

mutual
/-- Structural size of a value; used as the stack-depth bound of the
Content-Block Flattener. -/
def jsize : JVal → Nat
  | .jarr xs => 1 + jsizeA xs
  | .jobj kvs => 1 + jsizeO kvs
  | _ => 1

/-- Size of an array's elements. -/
def jsizeA : JArr → Nat
  | .nil => 0
  | .cons x xs => jsize x + jsizeA xs

/-- Size of an object's values. -/
def jsizeO : JObj → Nat
  | .nil => 0
  | .cons _ v kvs => jsize v + jsizeO kvs
end

/-- Escapes of one character inside a Python string `repr` with quote
character `q`: backslash, the quote, the common control escapes, `\xhh`
for the remaining controls.  Non-ASCII printable characters are kept
as-is (the non-printable Unicode escapes of CPython are outside the
model). -/
def reprEscape (q c : Nat) : PyStr :=
  if c == 92 then [92, 92]
  else if c == q then [92, q]
  else if c == 10 then [92, 110]
  else if c == 13 then [92, 114]
  else if c == 9 then [92, 116]
  else if c < 32 || c == 127 then [92, 120, hexDigitChar (c / 16), hexDigitChar (c % 16)]
  else [c]

/-- Python `repr()` of a string: single-quoted, unless the string contains
a single quote and no double quote. -/
def reprQuoted (s : PyStr) : PyStr :=
  let q : Nat := if s.contains 39 && !(s.contains 34) then 34 else 39
  q :: s.foldr (fun c acc => reprEscape q c ++ acc) [] ++ [q]

mutual
/-- Python `repr()` of a parsed JSON value: `None`/`True`/`False`,
decimal integers, quoted strings, bracketed lists, braced dicts. -/
def pyRepr : JVal → PyStr
  | .jnull => strB "None"
  | .jbool b => if b then strB "True" else strB "False"
  | .jint n => intStr n
  | .jstr s => reprQuoted s
  | .jarr xs => 91 :: pyReprA xs ++ [93]
  | .jobj kvs => 123 :: pyReprO kvs ++ [125]

/-- Model of `repr()` of a list's elements, comma separated. -/
def pyReprA : JArr → PyStr
  | .nil => []
  | .cons x .nil => pyRepr x
  | .cons x xs => pyRepr x ++ strB ", " ++ pyReprA xs

/-- Model of `repr()` of a dict's items, comma separated. -/
def pyReprO : JObj → PyStr
  | .nil => []
  | .cons k v .nil => reprQuoted k ++ strB ": " ++ pyRepr v
  | .cons k v kvs => reprQuoted k ++ strB ": " ++ pyRepr v ++ strB ", " ++ pyReprO kvs
end

/-- Python `str()` of a value: the string itself for strings, otherwise
the same rendering as `repr()`. -/
def pyStr : JVal → PyStr
  | .jstr s => s
  | v => pyRepr v

/-- Python truthiness of a parsed JSON value. -/
def pyTruthy : JVal → Bool
  | .jnull => false
  | .jbool b => b
  | .jint n => n != 0
  | .jstr s => !s.isEmpty
  | .jarr .nil => false
  | .jarr _ => true
  | .jobj .nil => false
  | .jobj _ => true

/-- Whether a value is JSON `null` (Python `None`). -/
def isJNull : JVal → Bool
  | .jnull => true
  | _ => false

/-- Python `int(v)`: identity on integers, 0/1 on booleans, digit parsing
on strings; `None`, lists and dicts raise (here: `none`). -/
def pyInt : JVal → Option Int
  | .jint n => some n
  | .jbool b => some (if b then 1 else 0)
  | .jstr s => pyIntOfStr s
  | _ => none

/-- Model of `to_int(value, default)` of `fix_manifest.py`: `int(value)` with the
default on any exception. -/
def to_int (v : JVal) (d : Int) : Int := (pyInt v).getD d

/-- Model of `clean_str(s)` of `fix_manifest.py`: stringify non-strings, then drop
the disallowed control characters. -/
def clean_str (v : JVal) : PyStr := ctrlStrip (pyStr v)

/-- The list branch of `as_list`: `[clean_str(str(v)) for v in value if v
is not None]`. -/
def asListElems : JArr → List PyStr
  | .nil => []
  | .cons x xs =>
    match x with
    | .jnull => asListElems xs
    | v => clean_str v :: asListElems xs

/-- Model of `as_list(value)` of `fix_manifest.py`: `None` gives the empty list; a
list keeps each non-`None` element's cleaned string form; any other value
is cleaned, split on the separators, and each piece stripped with empty
pieces discarded. -/
def as_list : JVal → List PyStr
  | .jnull => []
  | .jarr xs => asListElems xs
  | v =>
    let s := clean_str v
    ((splitSeps s).filter (fun p => !p.isEmpty && !(pyStrip p).isEmpty)).map pyStrip

/-! ## Dict operations

Python dict semantics on the ordered `JObj`: lookup, in-place update
(keeping the first occurrence's position, appending new keys),
`setdefault`, `pop`, keys. -/

/-- Model of `d[k]` / `d.get(k)`: the value at the first binding of `k`. -/
def objLookup : JObj → PyStr → Option JVal
  | .nil, _ => none
  | .cons k v t, key => if k = key then some v else objLookup t key

/-- Model of `d.get(k, dflt)`. -/
def objGetD (o : JObj) (k : PyStr) (d : JVal) : JVal := (objLookup o k).getD d

/-- Model of `k in d`. -/
def objHas (o : JObj) (k : PyStr) : Bool := (objLookup o k).isSome

/-- Model of `d[k] = v`: replace at the first binding of `k`, else append. -/
def objSet : JObj → PyStr → JVal → JObj
  | .nil, k, v => .cons k v .nil
  | .cons k2 v2 t, k, v => if k2 = k then .cons k v t else .cons k2 v2 (objSet t k v)

/-- Model of `d.pop(k, None)`: drop the bindings of `k`. -/
def objDel : JObj → PyStr → JObj
  | .nil, _ => .nil
  | .cons k2 v2 t, k => if k2 = k then objDel t k else .cons k2 v2 (objDel t k)

/-- Append a binding at the end (used by `setdefault` on a missing key). -/
def objAppend : JObj → PyStr → JVal → JObj
  | .nil, k, v => .cons k v .nil
  | .cons k2 v2 t, k, v => .cons k2 v2 (objAppend t k v)

/-- Model of `d.setdefault(k, v)`. -/
def objSetDefault (o : JObj) (k : PyStr) (v : JVal) : JObj :=
  if objHas o k then o else objAppend o k v

/-- The keys of a dict, in order. -/
def objKeys : JObj → List PyStr
  | .nil => []
  | .cons k _ t => k :: objKeys t

/-- Model of `{k: v for k, v in d.items() if p k}`. -/
def objFilterKeys (p : PyStr → Bool) : JObj → JObj
  | .nil => .nil
  | .cons k v t => if p k then .cons k v (objFilterKeys p t) else objFilterKeys p t

/-! ## Error taxonomy

The exceptions that can escape `main` in `fix_manifest.py`. -/

/-- The error kinds that terminate the pipeline run.
`unicodeError`: a `UnicodeDecodeError` from `json.loads` on undecodable
bytes — not a `json.JSONDecodeError`, so it is not caught by the retry
handler; `unrecoverable`: the retry parse also failed with a
`JSONDecodeError`, whose position is carried (`ManifestUnrecoverable`);
`shapeError`: the `ValueError` for a non-mapping root
(`ManifestShapeError`); `chapterError`: the `TypeError`/`ValueError`
escaping `dict(ch)` in `transform_chapter` for a chapters element that is
not dict-constructible. -/
inductive PipeErr where
  | unicodeError : Nat → PipeErr
  | unrecoverable : Nat → PipeErr
  | shapeError : PipeErr
  | chapterError : PipeErr

deriving DecidableEq

/-- One element of the sequence handed to `dict(...)`: a 2-element list
`[k, v]`, a 2-character string (each character becomes a 1-character
string), or a 2-entry dict (iterating it yields its two keys).  Non-string
keys of pair lists are not representable in the string-keyed `JObj` and
are mapped to `none` (CPython would accept any hashable key there). -/
def pyDictPairOf : JVal → Option (PyStr × JVal)
  | .jarr (.cons (.jstr k) (.cons v .nil)) => some (k, v)
  | .jstr [c1, c2] => some ([c1], .jstr [c2])
  | .jobj (.cons k1 _ (.cons k2 _ .nil)) => some (k1, .jstr k2)
  | _ => none

/-- Fold the key-value pairs of a sequence into a dict, left to right. -/
def pyDictFromPairs (acc : JObj) : JArr → Except PipeErr JObj
  | .nil => .ok acc
  | .cons x xs =>
    match pyDictPairOf x with
    | some kv => pyDictFromPairs (objSet acc kv.1 kv.2) xs
    | none => .error .chapterError

/-- Python `dict(x)` as called by `transform_chapter`: a shallow copy for
dicts; an empty dict for the empty string or the empty list; key-value
pairs for a list of pair-shaped elements; every other argument raises — a
`TypeError` for non-iterables (`None`, numbers, booleans) and a
`ValueError` for non-empty strings, whose character elements are not
length-2 sequences. -/
def pyDict : JVal → Except PipeErr JObj
  | .jobj kvs => .ok kvs
  | .jstr [] => .ok .nil
  | .jstr _ => .error .chapterError
  | .jarr xs => pyDictFromPairs .nil xs
  | _ => .error .chapterError

/-! ## Content-Block Flattener (`extract_text_from_block`) -/

/-- The scalar test `isinstance(v, (str, int, float, bool))` followed by
`clean_str(v)`, as in the text/paragraph probes and the opaque-object
fallback of `extract_text_from_block`. -/
def scalarStrOf : JVal → Option PyStr
  | .jstr s => some (clean_str (.jstr s))
  | .jint n => some (clean_str (.jint n))
  | .jbool b => some (clean_str (.jbool b))
  | _ => none

/-- The `"text"`/`"paragraph"` probe of the dict branch: each key that is
present with a scalar value contributes its cleaned string form, in that
fixed key order. -/
def textParts (kvs : JObj) : List PyStr :=
  ((objLookup kvs (strB "text")).bind scalarStrOf).toList ++
  ((objLookup kvs (strB "paragraph")).bind scalarStrOf).toList

/-- The opaque-object fallback: every scalar-valued field of the dict, in
field order, cleaned. -/
def fallbackParts : JObj → List PyStr
  | .nil => []
  | .cons _ v t =>
    match scalarStrOf v with
    | some s => s :: fallbackParts t
    | none => fallbackParts t

/-- Model of `[x for x in block if x is not None]` of the list branch. -/
def nonNullElems (l : List JVal) : List JVal := l.filter (fun v => !isJNull v)

mutual
/-- Fuel cost of flattening one value (below, `listCost` is the cost of a
worklist); `extractMany` is stable at any fuel above the cost. -/
def jcost : JVal → Nat
  | .jarr xs => 1 + jcostA xs
  | .jobj kvs => 1 + jcostO kvs
  | _ => 1

/-- Fuel cost of an array's elements as a worklist. -/
def jcostA : JArr → Nat
  | .nil => 1
  | .cons x xs => 1 + jcost x + jcostA xs

/-- Fuel cost of an object's values. -/
def jcostO : JObj → Nat
  | .nil => 1
  | .cons _ v kvs => 1 + jcost v + jcostO kvs
end

/-- Fuel cost of a worklist of values. -/
def listCost : List JVal → Nat
  | [] => 1
  | b :: bs => 1 + jcost b + listCost bs

/-- The recursion of `extract_text_from_block`, over a worklist of blocks
(so that the recursion is structural in the fuel and kernel-evaluable).
Each input block yields exactly one flattened string, in order:
a string is cleaned; a number or boolean is stringified and cleaned; a
dict collects the scalar `text`/`paragraph` fields, then the flattened
`content` (each element of a list, or the single nested block), then each
flattened element of a `children` list, falls back to its scalar-valued
fields when no part was collected at all, and joins the non-empty parts
with a newline; a list flattens its non-`None` elements and joins them
all with blank lines; anything else gives the empty string.  The fuel
bounds the interpreter's call stack; per-element fuel consumption is an
artifact of the worklist encoding, shown irrelevant by the stability
lemma. -/
def extractMany : Nat → List JVal → Option (List PyStr)
  | 0, _ => none
  | _ + 1, [] => some []
  | n + 1, b :: bs => do
    let s ←
      (match b with
       | .jstr s => some (clean_str (.jstr s))
       | .jint m => some (clean_str (.jint m))
       | .jbool c => some (clean_str (.jbool c))
       | .jarr xs => (extractMany n (nonNullElems (arrList xs))).map (joinWith [10, 10])
       | .jobj kvs => do
         let cp ←
           (match objLookup kvs (strB "content") with
            | none => some []
            | some c =>
              match c with
              | .jarr xs => extractMany n (arrList xs)
              | .jstr s2 => extractMany n [.jstr s2]
              | .jint m => extractMany n [.jint m]
              | .jbool c2 => extractMany n [.jbool c2]
              | .jobj kvs2 => extractMany n [.jobj kvs2]
              | .jnull => some [])
         let dp ←
           (match objLookup kvs (strB "children") with
            | some (.jarr xs) => extractMany n (arrList xs)
            | _ => some [])
         let parts := textParts kvs ++ cp ++ dp
         let parts2 := if parts.isEmpty then fallbackParts kvs else parts
         some (joinWith [10] (parts2.filter (fun p => !p.isEmpty)))
       | .jnull => some [])
    let rest ← extractMany n bs
    some (s :: rest)

/-- Model of `extract_text_from_block(block)` of `fix_manifest.py`: the flattening
of one block, run at a provably sufficient fuel. -/
def extract_text_from_block (b : JVal) : PyStr :=
  ((extractMany (jcost b + 3) [b]).bind List.head?).getD []

/-! ## Recursive String Sanitizer (`sanitize_strings`) -/

mutual
/-- Model of `sanitize_strings(obj)`: rebuild the tree, control-stripping every
string leaf; keys and order preserved. -/
def sanitize_strings : JVal → JVal
  | .jobj kvs => .jobj (sanitizeO kvs)
  | .jarr xs => .jarr (sanitizeA xs)
  | .jstr s => .jstr (ctrlStrip s)
  | v => v

/-- Model of `sanitize_strings` over a list. -/
def sanitizeA : JArr → JArr
  | .nil => .nil
  | .cons x xs => .cons (sanitize_strings x) (sanitizeA xs)

/-- Model of `sanitize_strings` over a dict's values. -/
def sanitizeO : JObj → JObj
  | .nil => .nil
  | .cons k v t => .cons k (sanitize_strings v) (sanitizeO t)
end

/-! ## Chapter Normalizer (`transform_chapter`)

The function is split into one definition per commented step of the
source; `transform_chapter` chains them after the `dict(ch)` copy. -/

/-- The integer stored in a coerced field (the code guarantees a `jint`
there; any other shape falls back to the stated default). -/
def jintOf (v : JVal) (d : Int) : Int :=
  match v with
  | .jint n => n
  | _ => d

/-- Step `number`: `if "number" in ch: ch["number"] = to_int(ch["number"])`. -/
def tcNumber (ch : JObj) : JObj :=
  match objLookup ch (strB "number") with
  | some v => objSet ch (strB "number") (.jint (to_int v 0))
  | none => ch

/-- Step `order`: `ch["order"] = to_int(ch["order"]) or ch.get("number", 0)`
when an `order` field exists, else `ch["order"] = ch.get("number", 0)`;
run after `tcNumber`, so the `number` fallback is the coerced value. -/
def tcOrder (ch : JObj) : JObj :=
  let numD : JVal := objGetD ch (strB "number") (.jint 0)
  match objLookup ch (strB "order") with
  | some ov =>
    let o := to_int ov 0
    objSet ch (strB "order") (if o ≠ 0 then .jint o else numD)
  | none => objSet ch (strB "order") numD

/-- The chapter's order value as an integer, read back for the f-strings
`f"chapter-{ch['order']}"` and `f"Chapter {ch['order']}"`. -/
def tcOrderInt (ch : JObj) : Int := jintOf (objGetD ch (strB "order") (.jint 0)) 0

/-- Step `slug`: derive from the lower-cased cleaned title (or
`chapter-{order}`) by collapsing non-alphanumeric runs to hyphens and
trimming hyphens, unless a truthy `slug` exists, which is only cleaned. -/
def tcSlug (ch : JObj) : JObj :=
  if pyTruthy (objGetD ch (strB "slug") .jnull) then
    objSet ch (strB "slug") (.jstr (clean_str (objGetD ch (strB "slug") .jnull)))
  else
    let t := objGetD ch (strB "title") .jnull
    let base : JVal :=
      if pyTruthy t then t else .jstr (strB "chapter-" ++ intStr (tcOrderInt ch))
    let base2 := pyLower (clean_str base)
    objSet ch (strB "slug") (.jstr (stripHyphens (collapseNonAlnum base2)))

/-- Step `title`: clean a truthy title, else default to `Chapter {order}`. -/
def tcTitle (ch : JObj) : JObj :=
  if pyTruthy (objGetD ch (strB "title") .jnull) then
    objSet ch (strB "title") (.jstr (clean_str (objGetD ch (strB "title") .jnull)))
  else
    objSet ch (strB "title") (.jstr (strB "Chapter " ++ intStr (tcOrderInt ch)))

/-- Step `summary`: clean when a string; else `ch.get("summary") or ""`. -/
def tcSummary (ch : JObj) : JObj :=
  match objLookup ch (strB "summary") with
  | some (.jstr s) => objSet ch (strB "summary") (.jstr (ctrlStrip s))
  | some v => objSet ch (strB "summary") (if pyTruthy v then v else .jstr [])
  | none => objSet ch (strB "summary") (.jstr [])

/-- Build a `JArr` of strings from a list of strings (for tag lists). -/
def strArr (l : List PyStr) : JArr := arrOf (l.map JVal.jstr)

/-- Step `tags`/`themes`: `ch["tags"] = as_list(ch.get("tags"))` and the
same for `themes`. -/
def tcLists (ch : JObj) : JObj :=
  let ch1 := objSet ch (strB "tags") (.jarr (strArr (as_list (objGetD ch (strB "tags") .jnull))))
  objSet ch1 (strB "themes") (.jarr (strArr (as_list (objGetD ch1 (strB "themes") .jnull))))

/-- The fallback chain of step `body` (`content`/`paragraphs`/`text`). -/
def tcBodyFallback (ch : JObj) : JObj :=
  let t0 : PyStr :=
    match objLookup ch (strB "content") with
    | some c => if isJNull c then [] else extract_text_from_block c
    | none => []
  let t1 : PyStr :=
    if t0.isEmpty && objHas ch (strB "paragraphs") then
      extract_text_from_block (objGetD ch (strB "paragraphs") .jnull)
    else t0
  let t2 : PyStr :=
    if t1.isEmpty && objHas ch (strB "text") then
      extract_text_from_block (objGetD ch (strB "text") .jnull)
    else t1
  objSet ch (strB "body") (.jstr (ctrlStrip t2))

/-- Step `body`: keep a cleaned non-blank string body; otherwise flatten
`content`, then `paragraphs`, then `text`, first non-empty result wins,
and clean it. -/
def tcBody (ch : JObj) : JObj :=
  match objLookup ch (strB "body") with
  | some (.jstr s) =>
    if !(pyStrip s).isEmpty then objSet ch (strB "body") (.jstr (ctrlStrip s))
    else tcBodyFallback ch
  | _ => tcBodyFallback ch

/-- Step cleanup: pop `content`, `paragraphs`, `text`, `audio_url`,
`published`. -/
def tcCleanup (ch : JObj) : JObj :=
  objDel (objDel (objDel (objDel (objDel ch (strB "content")) (strB "paragraphs"))
    (strB "text")) (strB "audio_url")) (strB "published")

/-- The body of `transform_chapter` after the `dict(ch)` copy: the
successive normalization steps on the chapter dict. -/
def transform_chapter_dict (ch : JObj) : JObj :=
  tcCleanup (tcBody (tcLists (tcSummary (tcTitle (tcSlug (tcOrder (tcNumber ch)))))))

/-- Model of `transform_chapter(ch)` of `fix_manifest.py`: `ch = dict(ch)` (which
raises for chapter records that are not dict-constructible), then the
normalization steps. -/
def transform_chapter (v : JVal) : Except PipeErr JObj :=
  (pyDict v).map transform_chapter_dict

/-! ## Book Normalizer (`normalize_book`) -/

/-- One chapter's contribution to `total_word_count`, i.e. the body of the
`try` block: an explicit non-`None` `word_count` goes through `int(...)`,
whose failure skips the chapter (`except: pass`, contributing 0); with no
usable `word_count`, `len((ch.get("body") or "").split())` counts the
body's whitespace-delimited tokens — where a truthy non-string body makes
`.split()` raise, again skipping the chapter. -/
def chapterBodyWc (ch : JObj) : Int :=
  let bv := objGetD ch (strB "body") .jnull
  let b := if pyTruthy bv then bv else .jstr []
  match b with
  | .jstr s => ((pySplitWs s).length : Int)
  | _ => 0

/-- One chapter's contribution when `word_count` is absent or `None`. -/
def chapterWc (ch : JObj) : Int :=
  let wc := objGetD ch (strB "word_count") .jnull
  if isJNull wc then chapterBodyWc ch else (pyInt wc).getD 0

/-- The fold `total_wc += ...` over the normalized chapters. -/
def totalWcFold (chs : List JObj) : Int :=
  chs.foldl (fun acc ch => acc + chapterWc ch) 0

/-- Step: `b["title"] = clean_str(str(b.get("title", "Untitled")))`. -/
def nbTitle (b : JObj) : JObj :=
  objSet b (strB "title")
    (.jstr (clean_str (objGetD b (strB "title") (.jstr (strB "Untitled")))))

/-- Step: `b["author"] = clean_str(str(b.get("author", "Unknown")))`. -/
def nbAuthor (b : JObj) : JObj :=
  objSet b (strB "author")
    (.jstr (clean_str (objGetD b (strB "author") (.jstr (strB "Unknown")))))

/-- Step: clean `subtitle` when truthy. -/
def nbSubtitle (b : JObj) : JObj :=
  if pyTruthy (objGetD b (strB "subtitle") .jnull) then
    objSet b (strB "subtitle") (.jstr (clean_str (objGetD b (strB "subtitle") .jnull)))
  else b

/-- Step: clean `description` when truthy. -/
def nbDescription (b : JObj) : JObj :=
  if pyTruthy (objGetD b (strB "description") .jnull) then
    objSet b (strB "description") (.jstr (clean_str (objGetD b (strB "description") .jnull)))
  else b

/-- Step: `b["genre"] = as_list(b.get("genre"))`. -/
def nbGenre (b : JObj) : JObj :=
  objSet b (strB "genre") (.jarr (strArr (as_list (objGetD b (strB "genre") .jnull))))

/-- Step: migrate a truthy `published_date` to an absent/falsy
`publication_date` (popping the old key, cleaning the moved value). -/
def nbPublished (b : JObj) : JObj :=
  if pyTruthy (objGetD b (strB "published_date") .jnull) &&
     !pyTruthy (objGetD b (strB "publication_date") .jnull) then
    objSet (objDel b (strB "published_date")) (strB "publication_date")
      (.jstr (clean_str (objGetD b (strB "published_date") .jnull)))
  else b

/-- Step: `b["tags"] = as_list(b.get("tags"))`. -/
def nbTags (b : JObj) : JObj :=
  objSet b (strB "tags") (.jarr (strArr (as_list (objGetD b (strB "tags") .jnull))))

/-- The field steps of `normalize_book` before the computed aggregates. -/
def normalize_book_base (book : JObj) : JObj :=
  nbTags (nbPublished (nbGenre (nbDescription (nbSubtitle (nbAuthor (nbTitle book))))))

/-- Model of `normalize_book(book, chapters)` of `fix_manifest.py`: the field steps,
then — only for a non-empty chapter list — the computed aggregates
`total_chapters` and `total_word_count` (the total, or `null` when it is
zero). -/
def normalize_book (book : JObj) (chapters : List JObj) : JObj :=
  let b7 := normalize_book_base book
  if chapters.isEmpty then b7
  else
    let b8 := objSet b7 (strB "total_chapters") (.jint (chapters.length : Int))
    let wc := totalWcFold chapters
    objSet b8 (strB "total_word_count") (if wc ≠ 0 then .jint wc else .jnull)

/-! ## Byte Sanitizer (`preclean_bytes`) -/

/-- Model of `bytes.splitlines()`: split at LF, CR and CRLF, with no trailing empty
line for a terminal line break. -/
def splitLinesGo : List Nat → List Nat → List (List Nat)
  | [], acc => if acc.isEmpty then [] else [acc.reverse]
  | 13 :: 10 :: rest, acc => acc.reverse :: splitLinesGo rest []
  | 13 :: rest, acc => acc.reverse :: splitLinesGo rest []
  | 10 :: rest, acc => acc.reverse :: splitLinesGo rest []
  | c :: rest, acc => splitLinesGo rest (c :: acc)

/-- Model of `data.splitlines()` on bytes. -/
def splitLines (data : List Nat) : List (List Nat) := splitLinesGo data []

/-- The byte-level `\s` class of the `re` patterns: space, tab, and the
line/page break controls. -/
def isReSpace (c : Nat) : Bool :=
  c == 32 || c == 9 || c == 10 || c == 13 || c == 11 || c == 12

/-- Trim the byte-level `\s*` from both ends of a line. -/
def reTrim (s : List Nat) : List Nat :=
  ((s.dropWhile isReSpace).reverse.dropWhile isReSpace).reverse

/-- Model of `TRUNCATED_LINE_RE.match(line)`: up to surrounding whitespace, the
line is `... (truncated` + anything + `) ...`. -/
def isTruncatedLine (line : List Nat) : Bool :=
  let t := reTrim line
  (strB "... (truncated").isPrefixOf t && (strB ") ...").isSuffixOf (t.drop 14)

/-- Model of `TRIPLE_DASH_RE.match(line)`: the line is `---` up to surrounding
whitespace. -/
def isTripleDash (line : List Nat) : Bool := reTrim line = strB "---"

/-- Model of `preclean_bytes(data)`: strip the control bytes, drop truncation
placeholder and `---` lines, rejoin with LF, and slice to the outermost
brace pair when one exists. -/
def preclean_bytes (data : List Nat) : List Nat :=
  let d1 := ctrlStrip data
  let lines := (splitLines d1).filter (fun l => !isTruncatedLine l && !isTripleDash l)
  let d2 := joinWith [10] lines
  match d2.findIdx? (· == 123), (d2.reverse.findIdx? (· == 125)).map (fun i => d2.length - 1 - i) with
  | some s, some e => if e > s then (d2.drop s).take (e - s + 1) else d2
  | _, _ => d2

/-! ## String-Aware Newline Escaper (`escape_newlines_inside_strings`) -/

/-- The scan loop of `escape_newlines_inside_strings`, carrying the
`in_string` and `escaped` flags: inside a string an escaped byte passes
and clears the flag, a backslash passes and sets it, a quote passes and
leaves string mode, a bare LF or CR becomes backslash-`n`; outside a
string every byte passes, a quote entering string mode. -/
def escLoop : Bool → Bool → List Nat → List Nat
  | _, _, [] => []
  | true, true, b :: rest => b :: escLoop true false rest
  | true, false, b :: rest =>
    if b == 92 then b :: escLoop true true rest
    else if b == 34 then b :: escLoop false false rest
    else if b == 10 then 92 :: 110 :: escLoop true false rest
    else if b == 13 then 92 :: 110 :: escLoop true false rest
    else b :: escLoop true false rest
  | false, e, b :: rest =>
    if b == 34 then b :: escLoop true false rest else b :: escLoop false e rest

/-- Model of `escape_newlines_inside_strings(data)` of `fix_manifest.py`. -/
def escape_newlines_inside_strings (data : List Nat) : List Nat :=
  escLoop false false data

/-! ## Structural Parser

Modelled from the spec: the Structural Parser "delegates to a standard
JSON parser over the sanitized/escaped bytes" (`json.loads`, which is
library code, not part of this repository): strict UTF-8 decoding
followed by strict RFC-8259 parsing with Python's surrogate handling in
`\u` escapes.  JSON floating-point literals are outside the model and are
reported as a parse error at the fraction/exponent mark; no claim
exercises them. -/

/-- Strict UTF-8 decoding of a byte buffer into code points; an
undecodable byte gives its position (Python `UnicodeDecodeError`,
rejecting overlong forms and surrogates). -/
def utf8Decode : List Nat → Nat → Except Nat PyStr
  | [], _ => .ok []
  | b :: rest, i =>
    if b < 128 then (utf8Decode rest (i + 1)).map (fun s => b :: s)
    else if 194 ≤ b && b ≤ 223 then
      match rest with
      | b2 :: rest2 =>
        if 128 ≤ b2 && b2 ≤ 191 then
          (utf8Decode rest2 (i + 2)).map (fun s => ((b - 192) * 64 + (b2 - 128)) :: s)
        else .error i
      | [] => .error i
    else if 224 ≤ b && b ≤ 239 then
      match rest with
      | b2 :: b3 :: rest2 =>
        if (if b == 224 then 160 else 128) ≤ b2 && b2 ≤ (if b == 237 then 159 else 191) &&
           128 ≤ b3 && b3 ≤ 191 then
          (utf8Decode rest2 (i + 3)).map
            (fun s => ((b - 224) * 4096 + (b2 - 128) * 64 + (b3 - 128)) :: s)
        else .error i
      | _ => .error i
    else if 240 ≤ b && b ≤ 244 then
      match rest with
      | b2 :: b3 :: b4 :: rest2 =>
        if (if b == 240 then 144 else 128) ≤ b2 && b2 ≤ (if b == 244 then 143 else 191) &&
           128 ≤ b3 && b3 ≤ 191 && 128 ≤ b4 && b4 ≤ 191 then
          (utf8Decode rest2 (i + 4)).map
            (fun s => ((b - 240) * 262144 + (b2 - 128) * 4096 + (b3 - 128) * 64 + (b4 - 128)) :: s)
        else .error i
      | _ => .error i
    else .error i

/-- UTF-8 bytes of one code point. -/
def utf8Encode (c : Nat) : List Nat :=
  if c < 128 then [c]
  else if c < 2048 then [192 + c / 64, 128 + c % 64]
  else if c < 65536 then [224 + c / 4096, 128 + (c / 64) % 64, 128 + c % 64]
  else [240 + c / 262144, 128 + (c / 4096) % 64, 128 + (c / 64) % 64, 128 + c % 64]

/-- UTF-8 bytes of a string. -/
def utf8EncodeStr (s : PyStr) : List Nat := s.foldr (fun c acc => utf8Encode c ++ acc) []

/-- Skip JSON whitespace, tracking the absolute position. -/
def skipWs : PyStr → Nat → PyStr × Nat
  | [], i => ([], i)
  | c :: rest, i =>
    if c == 32 || c == 9 || c == 10 || c == 13 then skipWs rest (i + 1) else (c :: rest, i)

/-- Prepend a decoded character to a string-parse result. -/
def consFst (c : Nat) (r : PyStr × PyStr × Nat) : PyStr × PyStr × Nat :=
  (c :: r.1, r.2.1, r.2.2)

/-- Parse a JSON string body after its opening quote: plain characters up
to the closing quote, the simple escapes, `\uXXXX` with Python's
surrogate-pair combining (lone surrogates kept), raw control characters
rejected; errors carry the failing position.  Like the value parser it is
fuel-structural; every step consumes input, so fuel `length + 1` at the
top never runs out. -/
def parseStrBody : Nat → PyStr → Nat → Except Nat (PyStr × PyStr × Nat)
  | 0, _, i => .error i
  | _ + 1, [], i => .error i
  | fl + 1, c :: rest, i =>
    if c == 34 then .ok ([], rest, i + 1)
    else if c == 92 then
      match rest with
      | [] => .error i
      | e :: rest2 =>
        let simple : Option Nat :=
          if e == 34 then some 34 else if e == 92 then some 92
          else if e == 47 then some 47 else if e == 98 then some 8
          else if e == 102 then some 12 else if e == 110 then some 10
          else if e == 114 then some 13 else if e == 116 then some 9 else none
        match simple with
        | some c2 => (parseStrBody fl rest2 (i + 2)).map (consFst c2)
        | none =>
          if e == 117 then
            match rest2 with
            | a :: b :: c3 :: d :: rest3 =>
              match hexVal a, hexVal b, hexVal c3, hexVal d with
              | some x, some y, some z, some w =>
                let n := ((x * 16 + y) * 16 + z) * 16 + w
                if 55296 ≤ n && n ≤ 56319 then
                  match rest3 with
                  | 92 :: 117 :: a2 :: b2 :: c4 :: d2 :: rest5 =>
                    match hexVal a2, hexVal b2, hexVal c4, hexVal d2 with
                    | some x2, some y2, some z2, some w2 =>
                      let m := ((x2 * 16 + y2) * 16 + z2) * 16 + w2
                      if 56320 ≤ m && m ≤ 57343 then
                        (parseStrBody fl rest5 (i + 12)).map
                          (consFst (65536 + (n - 55296) * 1024 + (m - 56320)))
                      else (parseStrBody fl rest3 (i + 6)).map (consFst n)
                    | _, _, _, _ => (parseStrBody fl rest3 (i + 6)).map (consFst n)
                  | _ => (parseStrBody fl rest3 (i + 6)).map (consFst n)
                else (parseStrBody fl rest3 (i + 6)).map (consFst n)
              | _, _, _, _ => .error i
            | _ => .error i
          else .error i
    else if c < 32 then .error i
    else (parseStrBody fl rest (i + 1)).map (consFst c)

/-- Consume a run of decimal digits, extending an accumulated value. -/
def takeDigits : PyStr → Nat → Nat → Nat × PyStr × Nat
  | [], i, acc => (acc, [], i)
  | c :: rest, i, acc =>
    if 48 ≤ c && c ≤ 57 then takeDigits rest (i + 1) (acc * 10 + (c - 48))
    else (acc, c :: rest, i)

/-- Finish a number: integers only — a following `.`/`e`/`E` (a JSON
float) is outside the model and reported as an error at its position. -/
def finishNum (v : Int) : PyStr → Nat → Except Nat (JVal × PyStr × Nat)
  | [], i => .ok (.jint v, [], i)
  | c :: rest, i =>
    if c == 46 || c == 101 || c == 69 then .error i
    else .ok (.jint v, c :: rest, i)

mutual
/-- Parse one JSON value, fuel-structural (each recursive call consumes at
least one input character first, so fuel `length + 1` never runs out). -/
def parseValue : Nat → PyStr → Nat → Except Nat (JVal × PyStr × Nat)
  | 0, _, i => .error i
  | n + 1, s, i =>
    match skipWs s i with
    | (s1, i1) =>
      match s1 with
      | [] => .error i1
      | c :: rest =>
        if c == 34 then (parseStrBody (n + 1) rest (i1 + 1)).map (fun r => (.jstr r.1, r.2.1, r.2.2))
        else if c == 123 then parseObjBody n rest (i1 + 1)
        else if c == 91 then parseArrBody n rest (i1 + 1)
        else if c == 116 then
          match rest with
          | 114 :: 117 :: 101 :: rest2 => .ok (.jbool true, rest2, i1 + 4)
          | _ => .error i1
        else if c == 102 then
          match rest with
          | 97 :: 108 :: 115 :: 101 :: rest2 => .ok (.jbool false, rest2, i1 + 5)
          | _ => .error i1
        else if c == 110 then
          match rest with
          | 117 :: 108 :: 108 :: rest2 => .ok (.jnull, rest2, i1 + 4)
          | _ => .error i1
        else if c == 45 then
          match rest with
          | 48 :: rest2 => finishNum 0 rest2 (i1 + 2)
          | c2 :: rest2 =>
            if 49 ≤ c2 && c2 ≤ 57 then
              match takeDigits rest2 (i1 + 2) (c2 - 48) with
              | (v, s2, i2) => finishNum (-(v : Int)) s2 i2
            else .error i1
          | [] => .error i1
        else if c == 48 then finishNum 0 rest (i1 + 1)
        else if 49 ≤ c && c ≤ 57 then
          match takeDigits rest (i1 + 1) (c - 48) with
          | (v, s2, i2) => finishNum (v : Int) s2 i2
        else .error i1
termination_by structural n => n

/-- Parse an object body after `{`. -/
def parseObjBody : Nat → PyStr → Nat → Except Nat (JVal × PyStr × Nat)
  | 0, _, i => .error i
  | n + 1, s, i =>
    match skipWs s i with
    | (s1, i1) =>
      match s1 with
      | 125 :: rest => .ok (.jobj .nil, rest, i1 + 1)
      | _ => parseMembers n .nil s1 i1
termination_by structural n => n

/-- Parse the members of a non-empty object; keys accumulate with
duplicate keys keeping the first position and the last value, as Python
dict insertion does. -/
def parseMembers : Nat → JObj → PyStr → Nat → Except Nat (JVal × PyStr × Nat)
  | 0, _, _, i => .error i
  | n + 1, acc, s, i =>
    match skipWs s i with
    | (s1, i1) =>
      match s1 with
      | 34 :: rest =>
        match parseStrBody (n + 1) rest (i1 + 1) with
        | .error p => .error p
        | .ok (k, s2, i2) =>
          match skipWs s2 i2 with
          | (s3, i3) =>
            match s3 with
            | 58 :: rest3 =>
              match parseValue n rest3 (i3 + 1) with
              | .error p => .error p
              | .ok (v, s4, i4) =>
                match skipWs s4 i4 with
                | (s5, i5) =>
                  match s5 with
                  | 44 :: rest5 => parseMembers n (objSet acc k v) rest5 (i5 + 1)
                  | 125 :: rest5 => .ok (.jobj (objSet acc k v), rest5, i5 + 1)
                  | _ => .error i5
            | _ => .error i3
      | _ => .error i1
termination_by structural n => n

/-- Parse an array body after `[`. -/
def parseArrBody : Nat → PyStr → Nat → Except Nat (JVal × PyStr × Nat)
  | 0, _, i => .error i
  | n + 1, s, i =>
    match skipWs s i with
    | (s1, i1) =>
      match s1 with
      | 93 :: rest => .ok (.jarr .nil, rest, i1 + 1)
      | _ => parseElems n [] s1 i1
termination_by structural n => n

/-- Parse the elements of a non-empty array (accumulated in reverse). -/
def parseElems : Nat → List JVal → PyStr → Nat → Except Nat (JVal × PyStr × Nat)
  | 0, _, _, i => .error i
  | n + 1, acc, s, i =>
    match parseValue n s i with
    | .error p => .error p
    | .ok (v, s2, i2) =>
      match skipWs s2 i2 with
      | (s3, i3) =>
        match s3 with
        | 44 :: rest => parseElems n (v :: acc) rest (i3 + 1)
        | 93 :: rest => .ok (.jarr (arrOf (v :: acc).reverse), rest, i3 + 1)
        | _ => .error i3
termination_by structural n => n
end

/-- The failures of `json.loads`: a `UnicodeDecodeError` on undecodable
bytes (which `except json.JSONDecodeError` does not catch), or a
`JSONDecodeError` with its position. -/
inductive LoadErr where
  | unicode : Nat → LoadErr
  | decode : Nat → LoadErr

deriving DecidableEq

/-- Model of `json.loads(data)`: strict UTF-8 decode, parse one value, and require
only whitespace after it. -/
def json_loads (data : List Nat) : Except LoadErr JVal :=
  match utf8Decode data 0 with
  | .error p => .error (.unicode p)
  | .ok s =>
    match parseValue (s.length + 1) s 0 with
    | .error p => .error (.decode p)
    | .ok (v, rest, i) =>
      match skipWs rest i with
      | (rest2, i2) => if rest2.isEmpty then .ok v else .error (.decode i2)

/-! ## Serialization

Modelled from the spec: the output sink is "a single UTF-8 JSON-serialized
canonical Manifest value" (`json.dumps(raw, ensure_ascii=False)` plus the
UTF-8 file write): default separators, the standard string escapes,
non-ASCII characters written raw. -/

/-- The JSON escape of one character in `json.dumps` output. -/
def jsonEscapeChar (c : Nat) : PyStr :=
  if c == 34 then [92, 34]
  else if c == 92 then [92, 92]
  else if c == 10 then [92, 110]
  else if c == 13 then [92, 114]
  else if c == 9 then [92, 116]
  else if c == 8 then [92, 98]
  else if c == 12 then [92, 102]
  else if c < 32 then [92, 117, 48, 48, hexDigitChar (c / 16), hexDigitChar (c % 16)]
  else [c]

/-- A JSON string literal for `json.dumps`. -/
def jsonDumpStr (s : PyStr) : PyStr :=
  34 :: s.foldr (fun c acc => jsonEscapeChar c ++ acc) [] ++ [34]

mutual
/-- Model of `json.dumps(v, ensure_ascii=False)` as code points: `null`, `true`,
`false`, decimal integers, quoted strings, and the default `", "`/`": "`
separators. -/
def jsonDumpV : JVal → PyStr
  | .jnull => strB "null"
  | .jbool b => if b then strB "true" else strB "false"
  | .jint n => intStr n
  | .jstr s => jsonDumpStr s
  | .jarr xs => 91 :: jsonDumpA xs ++ [93]
  | .jobj kvs => 123 :: jsonDumpO kvs ++ [125]

/-- Array elements of `json.dumps`. -/
def jsonDumpA : JArr → PyStr
  | .nil => []
  | .cons x .nil => jsonDumpV x
  | .cons x xs => jsonDumpV x ++ strB ", " ++ jsonDumpA xs

/-- Object members of `json.dumps`. -/
def jsonDumpO : JObj → PyStr
  | .nil => []
  | .cons k v .nil => jsonDumpStr k ++ strB ": " ++ jsonDumpV v
  | .cons k v kvs => jsonDumpStr k ++ strB ": " ++ jsonDumpV v ++ strB ", " ++ jsonDumpO kvs
end

/-- The serialized output bytes: `json.dumps(..., ensure_ascii=False)`
written as UTF-8. -/
def json_dumps (v : JVal) : List Nat := utf8EncodeStr (jsonDumpV v)

/-! ## Manifest Assembler and `main` -/

/-- The parse-with-one-retry of `main`: `json.loads` on the escaped bytes;
a `JSONDecodeError` is caught once, the control bytes are stripped again
and `json.loads` retried — whose `JSONDecodeError` (with its position,
`ManifestUnrecoverable`) or `UnicodeDecodeError` then propagates.  A
`UnicodeDecodeError` of the first attempt is not caught at all. -/
def loadWithRetry (rb : List Nat) : Except PipeErr JVal :=
  match json_loads rb with
  | .ok v => .ok v
  | .error (.unicode p) => .error (.unicodeError p)
  | .error (.decode _) =>
    match json_loads (ctrlStrip rb) with
    | .ok v => .ok v
    | .error (.decode p) => .error (.unrecoverable p)
    | .error (.unicode p) => .error (.unicodeError p)

/-- The byte stages plus parsing from `main`: preclean, escape newlines
inside strings, parse with one retry. -/
def loadStage (data : List Nat) : Except PipeErr JVal :=
  loadWithRetry (escape_newlines_inside_strings (preclean_bytes data))

/-- The six top-level keys that survive assembly. -/
def allowedTop : List PyStr :=
  [strB "book", strB "chapters", strB "glossary", strB "bibliography",
   strB "ready_for_import", strB "manifest_version"]

/-- Model of `[transform_chapter(ch) for ch in chs]`: left to right, the first
exception propagating. -/
def mapChapters : JArr → Except PipeErr (List JObj)
  | .nil => .ok []
  | .cons x xs => do
    let c ← transform_chapter x
    let rest ← mapChapters xs
    pure (c :: rest)

/-- The minimal book synthesized when the raw manifest has no book dict. -/
def defaultBookSeed : JObj :=
  objOf [(strB "title", .jstr (strB "Sacred Circuits: The Odyssey")),
         (strB "author", .jstr (strB "Unknown"))]

/-- Chapter-list discovery of `main`: a top-level `chapters` list, else a
`book.chapters` list one level down, else the empty list; each element
passes through `transform_chapter`. -/
def discoverChapters (kvs : JObj) : Except PipeErr (List JObj) :=
  match objLookup kvs (strB "chapters") with
  | some (.jarr xs) => mapChapters xs
  | _ =>
    match objLookup kvs (strB "book") with
    | some (.jobj bkvs) =>
      match objLookup bkvs (strB "chapters") with
      | some (.jarr xs) => mapChapters xs
      | _ => .ok []
    | _ => .ok []

/-- The tail of `main` after chapter normalization: normalize (or
synthesize) the book, store the chapters at the top level, prune the
unrecognized top-level keys, and apply the two defaults. -/
def assemble (kvs : JObj) (chapters : List JObj) : JObj :=
  let kvs1 :=
    match objLookup kvs (strB "book") with
    | some (.jobj bkvs) => objSet kvs (strB "book") (.jobj (normalize_book bkvs chapters))
    | _ => objSet kvs (strB "book") (.jobj (normalize_book defaultBookSeed chapters))
  let kvs2 := objSet kvs1 (strB "chapters") (.jarr (arrOf (chapters.map JVal.jobj)))
  let kvs3 := objFilterKeys (fun k => allowedTop.contains k) kvs2
  let kvs4 := objSetDefault kvs3 (strB "ready_for_import") (.jbool true)
  objSetDefault kvs4 (strB "manifest_version") (.jstr (strB "1.0"))

/-- The value-tree half of `main`: recursively sanitize strings, require a
mapping at the root (`ManifestShapeError` otherwise), normalize chapters
and book, assemble. -/
def processRaw (raw0 : JVal) : Except PipeErr JVal :=
  match sanitize_strings raw0 with
  | .jobj kvs => do
    let chapters ← discoverChapters kvs
    pure (.jobj (assemble kvs chapters))
  | _ => .error .shapeError

/-- Model of `main()` of `fix_manifest.py` as a function from the input bytes to
the canonical manifest or the terminating error (the file read/write at
the process boundary is outside the model). -/
def pipeline_main (data : List Nat) : Except PipeErr JVal :=
  match loadStage data with
  | .ok raw => processRaw raw
  | .error e => .error e

/-! ## Induction principles for the mutual value types -/

/-- List-style induction for `JObj` (the mutual recursor is inconvenient
for goals about a single type). -/
def objInduction (P : JObj → Prop) (hnil : P .nil)
    (hcons : ∀ k v t, P t → P (.cons k v t)) : ∀ o, P o
  | .nil => hnil
  | .cons k v t => hcons k v t (objInduction P hnil hcons t)

/-- List-style induction for `JArr`. -/
def arrInduction (P : JArr → Prop) (hnil : P .nil)
    (hcons : ∀ x xs, P xs → P (.cons x xs)) : ∀ xs, P xs
  | .nil => hnil
  | .cons x xs => hcons x xs (arrInduction P hnil hcons xs)

mutual
/-- Simultaneous induction over the value triple: the value conclusion. -/
def jvalInduction (P : JVal → Prop) (Pa : JArr → Prop) (Po : JObj → Prop)
    (hnull : P .jnull) (hbool : ∀ b, P (.jbool b)) (hint : ∀ n, P (.jint n))
    (hstr : ∀ s, P (.jstr s)) (harr : ∀ xs, Pa xs → P (.jarr xs))
    (hobj : ∀ kvs, Po kvs → P (.jobj kvs)) (hanil : Pa .nil)
    (hacons : ∀ x xs, P x → Pa xs → Pa (.cons x xs)) (honil : Po .nil)
    (hocons : ∀ k v t, P v → Po t → Po (.cons k v t)) : ∀ v, P v
  | .jnull => hnull
  | .jbool b => hbool b
  | .jint n => hint n
  | .jstr s => hstr s
  | .jarr xs => harr xs
      (jarrInduction P Pa Po hnull hbool hint hstr harr hobj hanil hacons honil hocons xs)
  | .jobj kvs => hobj kvs
      (jobjInduction P Pa Po hnull hbool hint hstr harr hobj hanil hacons honil hocons kvs)

/-- Simultaneous induction over the value triple: the array conclusion. -/
def jarrInduction (P : JVal → Prop) (Pa : JArr → Prop) (Po : JObj → Prop)
    (hnull : P .jnull) (hbool : ∀ b, P (.jbool b)) (hint : ∀ n, P (.jint n))
    (hstr : ∀ s, P (.jstr s)) (harr : ∀ xs, Pa xs → P (.jarr xs))
    (hobj : ∀ kvs, Po kvs → P (.jobj kvs)) (hanil : Pa .nil)
    (hacons : ∀ x xs, P x → Pa xs → Pa (.cons x xs)) (honil : Po .nil)
    (hocons : ∀ k v t, P v → Po t → Po (.cons k v t)) : ∀ xs, Pa xs
  | .nil => hanil
  | .cons x xs => hacons x xs
      (jvalInduction P Pa Po hnull hbool hint hstr harr hobj hanil hacons honil hocons x)
      (jarrInduction P Pa Po hnull hbool hint hstr harr hobj hanil hacons honil hocons xs)

/-- Simultaneous induction over the value triple: the object conclusion. -/
def jobjInduction (P : JVal → Prop) (Pa : JArr → Prop) (Po : JObj → Prop)
    (hnull : P .jnull) (hbool : ∀ b, P (.jbool b)) (hint : ∀ n, P (.jint n))
    (hstr : ∀ s, P (.jstr s)) (harr : ∀ xs, Pa xs → P (.jarr xs))
    (hobj : ∀ kvs, Po kvs → P (.jobj kvs)) (hanil : Pa .nil)
    (hacons : ∀ x xs, P x → Pa xs → Pa (.cons x xs)) (honil : Po .nil)
    (hocons : ∀ k v t, P v → Po t → Po (.cons k v t)) : ∀ kvs, Po kvs
  | .nil => honil
  | .cons k v t => hocons k v t
      (jvalInduction P Pa Po hnull hbool hint hstr harr hobj hanil hacons honil hocons v)
      (jobjInduction P Pa Po hnull hbool hint hstr harr hobj hanil hacons honil hocons t)
end

/-! ## Claim C5 — the derived `order` field -/

/-- The order rule as the amended claim states it: the coerced `number`
field (or 0) is the fallback; an existing `order` field coerces to an
integer, falling back to that value when the coercion yields zero; with
no `order` field the fallback is used directly. -/
def orderSpec (ch : JObj) : Int :=
  let num : Int :=
    match objLookup ch (strB "number") with
    | some v => to_int v 0
    | none => 0
  match objLookup ch (strB "order") with
  | some v =>
    let o := to_int v 0
    if o ≠ 0 then o else num
  | none => num

/-! ## Claim C8 — the tags/themes list coercion -/

/-- The coercion as the amended claim states it: `null`/absent gives the
empty list; a list keeps each non-null element's control-stripped string
form (which may be empty); any other value is cleaned, split on
comma/slash/pipe/semicolon, each piece stripped, and empty pieces
discarded. -/
def asListSpec : JVal → List PyStr
  | .jnull => []
  | .jarr xs => ((arrList xs).filter (fun v => !isJNull v)).map clean_str
  | v => ((splitSeps (clean_str v)).map pyStrip).filter (fun p => !p.isEmpty)

/-! ## Claim C4 — the computed book aggregates -/

/-- The body-token fallback as the amended claim states it: the
whitespace-delimited token count of a string `body`, and 0 for a missing
or non-string body. -/
def bodySpecTokens (ch : JObj) : Int :=
  match objLookup ch (strB "body") with
  | some (.jstr s) => ((pySplitWs s).length : Int)
  | _ => 0

/-- One chapter's contribution as the amended claim states it: an
explicit non-null `word_count` contributes its integer coercion — and
nothing (0) when the coercion fails; otherwise the body token count. -/
def wcSpecChapter (ch : JObj) : Int :=
  match objLookup ch (strB "word_count") with
  | some v => if isJNull v then bodySpecTokens ch else (pyInt v).getD 0
  | none => bodySpecTokens ch

/-- The amended total: the sum of the per-chapter contributions, stored as
`null` when it is zero. -/
def totalWcSpec (chs : List JObj) : JVal :=
  if (chs.map wcSpecChapter).sum = 0 then .jnull else .jint (chs.map wcSpecChapter).sum

/-! ## Claim C10 — non-dict-constructible chapters elements abort the run -/

/-- The chapters elements that make `dict(ch)` raise, as the amended claim
states them: `null`, booleans, numbers (`TypeError`: not iterable) and
non-empty strings (`ValueError`: length-1 elements).  The empty string and
lists are dict-constructible or fail element-wise and are not covered. -/
def abortingChapterElem : JVal → Bool
  | .jnull => true
  | .jbool _ => true
  | .jint _ => true
  | .jstr s => !s.isEmpty
  | _ => false

/-! ## Claim C2 — the string-aware newline escaper -/

/-- The scanner state of the escaper as the spec describes it: outside any
string literal, inside one, or inside one right after an unconsumed
backslash. -/
inductive EscState where
  | outside : EscState
  | inString : EscState
  | inStringEsc : EscState

deriving DecidableEq

/-- One step of the escaper as the claim states it: outside a string every
byte passes unchanged (a quote enters string mode); inside a string the
byte after an active backslash passes unchanged, a backslash arms the
escape flag, an unescaped quote leaves string mode, a bare LF or CR is
replaced by the two bytes backslash-`n`, and any other byte passes
unchanged. -/
def escSpecStep (st : EscState) (b : Nat) : List Nat × EscState :=
  match st with
  | .outside => if b == 34 then ([b], .inString) else ([b], .outside)
  | .inString =>
    if b == 92 then ([b], .inStringEsc)
    else if b == 34 then ([b], .outside)
    else if b == 10 || b == 13 then ([92, 110], .inString)
    else ([b], .inString)
  | .inStringEsc => ([b], .inString)

/-- Run the claimed step function over the input. -/
def escSpecRun : EscState → List Nat → List Nat
  | _, [] => []
  | st, b :: rest =>
    match escSpecStep st b with
    | (out, st2) => out ++ escSpecRun st2 rest

/-- The state correspondence between the code's two flags and the spec's
three-state scanner (the `escaped` flag is never read outside a string). -/
def escStateOf (inString escaped : Bool) : EscState :=
  if inString then (if escaped then .inStringEsc else .inString) else .outside

/-! ## Claim C9 — totality of Content-Block flattening -/

/-- The `content`-field contribution of the dict branch, as a standalone
function of the fuel (definitionally the sub-computation of
`extractMany`). -/
def contentPart (n : Nat) (kvs : JObj) : Option (List PyStr) :=
  match objLookup kvs (strB "content") with
  | none => some []
  | some c =>
    match c with
    | .jarr xs => extractMany n (arrList xs)
    | .jstr s2 => extractMany n [.jstr s2]
    | .jint m2 => extractMany n [.jint m2]
    | .jbool c2 => extractMany n [.jbool c2]
    | .jobj kvs2 => extractMany n [.jobj kvs2]
    | .jnull => some []

/-- The `children`-field contribution of the dict branch. -/
def childrenPart (n : Nat) (kvs : JObj) : Option (List PyStr) :=
  match objLookup kvs (strB "children") with
  | some (.jarr xs) => extractMany n (arrList xs)
  | _ => some []

/-- The flattening of one block at the given stack fuel (definitionally
the per-element computation of `extractMany`). -/
def extractOne (n : Nat) (b : JVal) : Option PyStr :=
  match b with
  | .jstr s => some (clean_str (.jstr s))
  | .jint m => some (clean_str (.jint m))
  | .jbool c => some (clean_str (.jbool c))
  | .jnull => some []
  | .jarr xs => (extractMany n (nonNullElems (arrList xs))).map (joinWith [10, 10])
  | .jobj kvs => do
    let cp ← contentPart n kvs
    let dp ← childrenPart n kvs
    let parts := textParts kvs ++ cp ++ dp
    let parts2 := if parts.isEmpty then fallbackParts kvs else parts
    some (joinWith [10] (parts2.filter (fun p => !p.isEmpty)))

/-! ## Claim C1 — pipeline idempotence on its own serialized output -/

/-- The failing input of C1: a manifest whose only chapter has a
whitespace-only `content` block. -/
def exC1 : List Nat := strB "\x7b\x22chapters\x22: [\x7b\x22content\x22: \x22 \x22\x7d]\x7d"

/-- The body string of the first chapter of a pipeline result, when the
run succeeded and that chapter exists. -/
def bodyOfRun (r : Except PipeErr JVal) : Option PyStr :=
  match r with
  | .ok (.jobj kvs) =>
    match objLookup kvs (strB "chapters") with
    | some (.jarr (.cons (.jobj ckvs) _)) =>
      match objLookup ckvs (strB "body") with
      | some (.jstr s) => some s
      | _ => none
    | _ => none
  | _ => none

/-- The first pipeline run on the failing input. -/
def c1RunOnce : Except PipeErr JVal := pipeline_main exC1

/-- The second run: the first run's canonical manifest re-serialized and
re-fed as the input byte buffer. -/
def c1RunTwice : Except PipeErr JVal :=
  match c1RunOnce with
  | .ok m => pipeline_main (json_dumps m)
  | .error e => .error e

example : pyStrip (strB "  a b  ") = strB "a b" := by decide

example : pySplitWs (strB " a  bc ") = [strB "a", strB "bc"] := by decide

example : splitSeps (strB "a,b/;c") = [strB "a", strB "b", strB "", strB "c"] := by decide

example : intStr (-45) = strB "-45" := by decide

example : pyIntOfStr (strB " -1_2 ") = some (-12) := by decide

example : pyIntOfStr (strB "3.5") = none := by decide

example : pyIntOfStr (strB "_3") = none := by decide

example : stripHyphens (collapseNonAlnum (pyLower (strB "A b!c"))) = strB "a-b-c" := by decide

example : joinWith [10] [strB "x", strB "y"] = strB "x\ny" := by decide

example : pyStr (.jarr (arrOf [.jint 1, .jstr (strB "a'b")])) = strB "[1, \x22a'b\x22]" := by decide

example : as_list (.jstr (strB "a, b/|c")) = [strB "a", strB "b", strB "c"] := by decide

example : as_list (.jarr (arrOf [.jstr [], .jnull, .jint 3])) = [[], strB "3"] := by decide

example : pyDict (.jstr []) = .ok .nil := by decide

example : pyDict (.jint 5) = .error .chapterError := by decide

example : pyDict (.jarr .nil) = .ok .nil := by decide

example : extract_text_from_block (.jstr (strB " hi\x01")) = strB " hi" := by decide

example : extract_text_from_block (.jarr (arrOf [.jstr (strB "a"), .jnull, .jstr (strB "b")]))
    = strB "a\n\nb" := by decide

example : extract_text_from_block (.jobj (objOf [(strB "text", .jstr (strB "T")),
    (strB "children", .jarr (arrOf [.jstr (strB "c1"), .jstr (strB "c2")]))]))
    = strB "T\nc1\nc2" := by decide

example : extract_text_from_block (.jobj (objOf [(strB "a", .jint 1), (strB "b", .jstr (strB "x"))]))
    = strB "1\nx" := by decide

example : extract_text_from_block (.jobj (objOf [(strB "content",
    .jobj (objOf [(strB "paragraph", .jstr (strB "P"))]))])) = strB "P" := by decide

example : transform_chapter (.jobj (objOf [(strB "content", .jstr (strB " "))]))
    = .ok (objOf [(strB "order", .jint 0), (strB "slug", .jstr (strB "chapter-0")),
      (strB "title", .jstr (strB "Chapter 0")), (strB "summary", .jstr []),
      (strB "tags", .jarr .nil), (strB "themes", .jarr .nil),
      (strB "body", .jstr (strB " "))]) := by decide

example : transform_chapter (.jint 7) = .error .chapterError := by decide

example : objLookup (normalize_book .nil
    [objOf [(strB "body", .jstr (strB "a b c"))],
     objOf [(strB "body", .jstr (strB "d e")), (strB "word_count", .jint 9)]])
    (strB "total_word_count") = some (.jint 12) := by decide

example : objLookup (normalize_book .nil [objOf [(strB "body", .jstr (strB ""))]])
    (strB "total_word_count") = some .jnull := by decide

example : normalize_book (objOf [(strB "published_date", .jstr (strB "2020"))]) []
    = objOf [(strB "title", .jstr (strB "Untitled")), (strB "author", .jstr (strB "Unknown")),
       (strB "genre", .jarr .nil), (strB "publication_date", .jstr (strB "2020")),
       (strB "tags", .jarr .nil)] := by decide

example : preclean_bytes (strB "note\n\x7b\x22a\x22: 1\x7d\ntrailer") = strB "\x7b\x22a\x22: 1\x7d" := by decide

example : preclean_bytes (strB "\x7b\n... (truncated for brevity) ...\n---\n\x7d") = strB "\x7b\n\x7d" := by decide

example : preclean_bytes (strB "no braces \x01here") = strB "no braces here" := by decide

example : escape_newlines_inside_strings (strB "\x7b\x22a\x22: \x22line1\nline2\x22\x7d")
    = strB "\x7b\x22a\x22: \x22line1\\nline2\x22\x7d" := by decide

example : escape_newlines_inside_strings (strB "\x7b\n\x22b\x22: 1\x7d") = strB "\x7b\n\x22b\x22: 1\x7d" := by decide

example : escape_newlines_inside_strings (strB "\x22a\\\nb\x22") = strB "\x22a\\\nb\x22" := by decide

example : json_loads (strB "\x7b\x22a\x22: [1, true, null, \x22x\\n\x22]\x7d")
    = .ok (.jobj (objOf [(strB "a",
        .jarr (arrOf [.jint 1, .jbool true, .jnull, .jstr (strB "x\n")]))])) := by decide

example : json_loads (strB "nope") = .error (.decode 0) := by decide

example : json_loads (strB "\x7b\x22a\x22: \x22b\n\x22\x7d") = .error (.decode 8) := by decide

example : json_loads [255] = .error (.unicode 0) := by decide

example : json_loads (strB "\x22\\ud83d\\ude00\x22") = .ok (.jstr [128512]) := by decide

example : json_loads (strB " 01") = .error (.decode 2) := by decide

example : json_dumps (.jobj (objOf [(strB "a", .jarr (arrOf [.jint 1, .jnull])),
    (strB "b", .jstr (strB "x\ny"))]))
    = strB "\x7b\x22a\x22: [1, null], \x22b\x22: \x22x\\ny\x22\x7d" := by decide

example : pipeline_main (strB "\x7b\x22chapters\x22: [5]\x7d") = .error .chapterError := by decide

example : pipeline_main (strB "nope") = .error (.unrecoverable 0) := by decide

example : pipeline_main (strB "[1, 2]") = .error .shapeError := by decide

/-! ## Dict lemmas -/

theorem objLookup_objSet_self (o : JObj) (k : PyStr) (v : JVal) :
    objLookup (objSet o k v) k = some v := by
  induction o using objInduction with
  | hnil => simp [objSet, objLookup]
  | hcons k2 v2 t ih => by_cases h : k2 = k <;> simp [objSet, objLookup, h, ih]

theorem objLookup_objSet_ne (o : JObj) (k k2 : PyStr) (v : JVal) (h : k2 ≠ k) :
    objLookup (objSet o k v) k2 = objLookup o k2 := by
  induction o using objInduction with
  | hnil => simp [objSet, objLookup, Ne.symm h]
  | hcons k3 v3 t ih =>
    by_cases h3 : k3 = k
    · subst h3
      simp [objSet, objLookup, Ne.symm h, ih]
    · by_cases h4 : k3 = k2 <;> simp [objSet, objLookup, h, h3, h4, ih]

theorem objLookup_objDel_ne (o : JObj) (k k2 : PyStr) (h : k2 ≠ k) :
    objLookup (objDel o k) k2 = objLookup o k2 := by
  induction o using objInduction with
  | hnil => simp [objDel]
  | hcons k3 v3 t ih =>
    by_cases h3 : k3 = k
    · subst h3
      simp [objDel, objLookup, Ne.symm h, ih]
    · by_cases h4 : k3 = k2 <;> simp [objDel, objLookup, h, h3, h4, ih]

theorem objHas_objSet_ne (o : JObj) (k k2 : PyStr) (v : JVal) (h : k2 ≠ k) :
    objHas (objSet o k v) k2 = objHas o k2 := by
  simp [objHas, objLookup_objSet_ne o k k2 v h]

theorem objLookup_objAppend_ne (o : JObj) (k k2 : PyStr) (v : JVal) (h : k2 ≠ k) :
    objLookup (objAppend o k v) k2 = objLookup o k2 := by
  induction o using objInduction with
  | hnil => simp [objAppend, objLookup, Ne.symm h]
  | hcons k3 v3 t ih => by_cases h4 : k3 = k2 <;> simp [objAppend, objLookup, h4, ih]

theorem objLookup_objAppend_absent (o : JObj) (k : PyStr) (v : JVal)
    (h : objHas o k = false) : objLookup (objAppend o k v) k = some v := by
  induction o using objInduction with
  | hnil => simp [objAppend, objLookup]
  | hcons k3 v3 t ih =>
    simp only [objHas, objLookup] at h
    by_cases h4 : k3 = k
    · simp [h4] at h
    · simp [objAppend, objLookup, h4] at h ⊢
      exact ih (by simp [objHas, h])

theorem objLookup_objSetDefault_absent (o : JObj) (k : PyStr) (v : JVal)
    (h : objHas o k = false) : objLookup (objSetDefault o k v) k = some v := by
  simp [objSetDefault, h, objLookup_objAppend_absent o k v h]

theorem objLookup_objSetDefault_ne (o : JObj) (k k2 : PyStr) (v : JVal) (h : k2 ≠ k) :
    objLookup (objSetDefault o k v) k2 = objLookup o k2 := by
  by_cases h2 : objHas o k
  · simp [objSetDefault, h2]
  · simp [objSetDefault, h2, objLookup_objAppend_ne o k k2 v h]

theorem objHas_objSetDefault_ne (o : JObj) (k k2 : PyStr) (v : JVal) (h : k2 ≠ k) :
    objHas (objSetDefault o k v) k2 = objHas o k2 := by
  simp [objHas, objLookup_objSetDefault_ne o k k2 v h]

theorem mem_objKeys_objFilterKeys (p : PyStr → Bool) (o : JObj) (k : PyStr)
    (h : k ∈ objKeys (objFilterKeys p o)) : p k = true ∧ k ∈ objKeys o := by
  induction o using objInduction with
  | hnil => simp [objFilterKeys, objKeys] at h
  | hcons k3 v3 t ih =>
    by_cases h3 : p k3
    · simp [objFilterKeys, objKeys, h3] at h
      rcases h with h | h
      · subst h
        simp [objKeys, h3]
      · rcases ih h with ⟨h4, h5⟩
        simp [objKeys, h4, h5]
    · simp [objFilterKeys, h3] at h
      rcases ih h with ⟨h4, h5⟩
      simp [objKeys, h4, h5]

theorem mem_objKeys_objSetDefault (o : JObj) (k k2 : PyStr) (v : JVal)
    (h : k2 ∈ objKeys (objSetDefault o k v)) : k2 ∈ objKeys o ∨ k2 = k := by
  by_cases h2 : objHas o k
  · simp [objSetDefault, h2] at h
    exact .inl h
  · simp [objSetDefault, h2] at h
    clear h2
    induction o using objInduction with
    | hnil =>
      simp [objAppend, objKeys] at h
      exact .inr h
    | hcons k3 v3 t ih =>
      simp [objAppend, objKeys] at h
      rcases h with h | h
      · exact .inl (by simp [objKeys, h])
      · rcases ih h with h4 | h4
        · exact .inl (by simp [objKeys, h4])
        · exact .inr h4

theorem mem_objKeys_objSet (o : JObj) (k k2 : PyStr) (v : JVal)
    (h : k2 ∈ objKeys (objSet o k v)) : k2 ∈ objKeys o ∨ k2 = k := by
  induction o using objInduction with
  | hnil =>
    simp [objSet, objKeys] at h
    exact .inr h
  | hcons k3 v3 t ih =>
    by_cases h3 : k3 = k
    · subst h3
      simp [objSet, objKeys] at h
      rcases h with h | h
      · exact .inr h
      · exact .inl (by simp [objKeys, h])
    · simp [objSet, objKeys, h3] at h
      rcases h with h | h
      · exact .inl (by simp [objKeys, h])
      · rcases ih h with h4 | h4
        · exact .inl (by simp [objKeys, h4])
        · exact .inr h4

theorem objLookup_sanitizeO (kvs : JObj) (k : PyStr) :
    objLookup (sanitizeO kvs) k = (objLookup kvs k).map sanitize_strings := by
  induction kvs using objInduction with
  | hnil => simp [sanitizeO, objLookup]
  | hcons k3 v3 t ih => by_cases h3 : k3 = k <;> simp [sanitizeO, objLookup, h3, ih]

theorem objHas_sanitizeO (kvs : JObj) (k : PyStr) :
    objHas (sanitizeO kvs) k = objHas kvs k := by
  simp only [objHas, objLookup_sanitizeO]
  cases objLookup kvs k <;> simp

theorem mem_arrList_sanitizeA (xs : JArr) (e : JVal) (h : e ∈ arrList xs) :
    sanitize_strings e ∈ arrList (sanitizeA xs) := by
  induction xs using arrInduction with
  | hnil => simp [arrList] at h
  | hcons x t ih =>
    simp [arrList] at h ⊢
    rcases h with h | h
    · exact .inl (by rw [h])
    · exact .inr (ih h)

theorem objLookup_tcSlug_ne (ch : JObj) (k : PyStr) (h : k ≠ strB "slug") :
    objLookup (tcSlug ch) k = objLookup ch k := by
  unfold tcSlug
  by_cases h2 : pyTruthy (objGetD ch (strB "slug") .jnull) <;>
    simp [h2, objLookup_objSet_ne _ _ _ _ h]

theorem objLookup_tcTitle_ne (ch : JObj) (k : PyStr) (h : k ≠ strB "title") :
    objLookup (tcTitle ch) k = objLookup ch k := by
  unfold tcTitle
  by_cases h2 : pyTruthy (objGetD ch (strB "title") .jnull) <;>
    simp [h2, objLookup_objSet_ne _ _ _ _ h]

theorem objLookup_tcSummary_ne (ch : JObj) (k : PyStr) (h : k ≠ strB "summary") :
    objLookup (tcSummary ch) k = objLookup ch k := by
  unfold tcSummary
  cases h2 : objLookup ch (strB "summary") with
  | none => simp [objLookup_objSet_ne _ _ _ _ h]
  | some v => cases v <;> simp [objLookup_objSet_ne _ _ _ _ h]

theorem objLookup_tcLists_ne (ch : JObj) (k : PyStr) (h1 : k ≠ strB "tags")
    (h2 : k ≠ strB "themes") : objLookup (tcLists ch) k = objLookup ch k := by
  unfold tcLists
  simp [objLookup_objSet_ne _ _ _ _ h1, objLookup_objSet_ne _ _ _ _ h2]

theorem objLookup_tcBodyFallback_ne (ch : JObj) (k : PyStr) (h : k ≠ strB "body") :
    objLookup (tcBodyFallback ch) k = objLookup ch k := by
  unfold tcBodyFallback
  simp [objLookup_objSet_ne _ _ _ _ h]

theorem objLookup_tcBody_ne (ch : JObj) (k : PyStr) (h : k ≠ strB "body") :
    objLookup (tcBody ch) k = objLookup ch k := by
  unfold tcBody
  cases h2 : objLookup ch (strB "body") with
  | none => simp [objLookup_tcBodyFallback_ne ch k h]
  | some v =>
    cases v <;>
      simp [objLookup_tcBodyFallback_ne ch k h, objLookup_objSet_ne _ _ _ _ h]
    split <;> simp [objLookup_objSet_ne _ _ _ _ h, objLookup_tcBodyFallback_ne ch k h]

theorem objLookup_tcCleanup_ne (ch : JObj) (k : PyStr) (h1 : k ≠ strB "content")
    (h2 : k ≠ strB "paragraphs") (h3 : k ≠ strB "text") (h4 : k ≠ strB "audio_url")
    (h5 : k ≠ strB "published") : objLookup (tcCleanup ch) k = objLookup ch k := by
  unfold tcCleanup
  rw [objLookup_objDel_ne _ _ _ h5, objLookup_objDel_ne _ _ _ h4,
    objLookup_objDel_ne _ _ _ h3, objLookup_objDel_ne _ _ _ h2,
    objLookup_objDel_ne _ _ _ h1]

theorem objLookup_order_after_tcOrder (ch : JObj) :
    objLookup (tcOrder (tcNumber ch)) (strB "order") = some (.jint (orderSpec ch)) := by
  have hne : strB "order" ≠ strB "number" := by decide
  have hnum : objGetD (tcNumber ch) (strB "number") (.jint 0) =
      .jint (match objLookup ch (strB "number") with
             | some v => to_int v 0
             | none => 0) := by
    unfold tcNumber
    cases h : objLookup ch (strB "number") with
    | none => simp [objGetD, h]
    | some v => simp [objGetD, objLookup_objSet_self]
  have hord : objLookup (tcNumber ch) (strB "order") = objLookup ch (strB "order") := by
    unfold tcNumber
    cases h : objLookup ch (strB "number") with
    | none => rfl
    | some v => simp [objLookup_objSet_ne _ _ _ _ hne]
  unfold tcOrder
  rw [hnum, hord]
  cases h : objLookup ch (strB "order") with
  | none => simp [orderSpec, h, objLookup_objSet_self]
  | some v =>
    by_cases h2 : to_int v 0 ≠ 0 <;> simp [orderSpec, h, h2, objLookup_objSet_self]

/-- C5, amended: for every raw chapter mapping, the normalized `order`
field is an integer (possibly negative — the claim's "non-negative" does
not hold) derived from the `order` field first and then the `number`
field: `number` is coerced to an integer with fallback 0; an existing
`order` is coerced, falling back to the coerced `number` (or 0) when the
coercion yields falsy/zero; with neither field the result is the coerced
`number` or 0.  The chapter's position plays no part. -/
theorem C5_order_rule (ch : JObj) :
    (transform_chapter (.jobj ch)).map (fun out => objLookup out (strB "order")) =
      .ok (some (.jint (orderSpec ch))) := by
  have h : transform_chapter (.jobj ch) = .ok (transform_chapter_dict ch) := rfl
  rw [h]
  have h2 : objLookup (transform_chapter_dict ch) (strB "order")
      = some (.jint (orderSpec ch)) := by
    unfold transform_chapter_dict
    rw [objLookup_tcCleanup_ne _ _ (by decide) (by decide) (by decide) (by decide) (by decide),
      objLookup_tcBody_ne _ _ (by decide), objLookup_tcLists_ne _ _ (by decide) (by decide),
      objLookup_tcSummary_ne _ _ (by decide), objLookup_tcTitle_ne _ _ (by decide),
      objLookup_tcSlug_ne _ _ (by decide), objLookup_order_after_tcOrder]
  simp [Except.map, h2]

/-- C5, counterexample to the claim as stated: a chapter whose `order`
field is the integer −1 keeps order −1, which is negative. -/
theorem C5_counterexample :
    (transform_chapter (.jobj (objOf [(strB "order", .jint (-1))]))).map
      (fun out => objLookup out (strB "order")) = .ok (some (.jint (-1))) ∧
    (-1 : Int) < 0 := by
  refine ⟨?_, by decide⟩
  decide

theorem pyStrip_nil : pyStrip [] = [] := rfl

theorem stripFilterMap (l : List PyStr) :
    (l.filter (fun p => !p.isEmpty && !(pyStrip p).isEmpty)).map pyStrip
      = (l.map pyStrip).filter (fun p => !p.isEmpty) := by
  induction l with
  | nil => rfl
  | cons p t ih =>
    by_cases h : (pyStrip p).isEmpty
    · simp [List.filter_cons, List.map_cons, h, ih]
    · have hpe : p.isEmpty = false := by
        cases p with
        | nil => simp [pyStrip_nil] at h
        | cons c r => simp
      simp [List.filter_cons, List.map_cons, h, hpe, ih]

theorem asListElems_eq (xs : JArr) :
    asListElems xs = ((arrList xs).filter (fun v => !isJNull v)).map clean_str := by
  induction xs using arrInduction with
  | hnil => rfl
  | hcons x t ih => cases x <;> simp [asListElems, arrList, isJNull, List.filter_cons, ih]

/-- C8, amended: the coercion yields the `asListSpec` list for every
input — in particular a list input keeps each non-null element's cleaned
string form, possibly empty — and for every non-list, non-null input
every produced piece is a non-empty string. -/
theorem C8_list_coercion :
    (∀ v, as_list v = asListSpec v) ∧
    (∀ (v : JVal) (p : PyStr), (∀ xs, v ≠ .jarr xs) → v ≠ .jnull →
      p ∈ as_list v → p ≠ []) := by
  have heq : ∀ v, as_list v = asListSpec v := by
    intro v
    cases v with
    | jnull => rfl
    | jarr xs => simpa [as_list, asListSpec] using asListElems_eq xs
    | jbool b => simpa [as_list, asListSpec] using stripFilterMap (splitSeps (clean_str (.jbool b)))
    | jint n => simpa [as_list, asListSpec] using stripFilterMap (splitSeps (clean_str (.jint n)))
    | jstr s => simpa [as_list, asListSpec] using stripFilterMap (splitSeps (clean_str (.jstr s)))
    | jobj kvs => simpa [as_list, asListSpec] using stripFilterMap (splitSeps (clean_str (.jobj kvs)))
  refine ⟨heq, ?_⟩
  intro v p hna hnn hp
  rw [heq v] at hp
  have hmem : p ∈ ((splitSeps (clean_str v)).map pyStrip).filter (fun p => !p.isEmpty) := by
    cases v with
    | jnull => exact absurd rfl hnn
    | jarr xs => exact absurd rfl (hna xs)
    | jbool b => exact hp
    | jint n => exact hp
    | jstr s => exact hp
    | jobj kvs => exact hp
  have := List.of_mem_filter hmem
  simpa [List.isEmpty_iff] using this

/-- C8, counterexample to the claim as stated: a list input containing an
empty string keeps it, so the result is not a list of non-empty strings. -/
theorem C8_counterexample :
    as_list (.jarr (arrOf [.jstr [], .jstr (strB "ok")])) = [[], strB "ok"] ∧
    ([] : PyStr) ∈ as_list (.jarr (arrOf [.jstr [], .jstr (strB "ok")])) := by
  exact ⟨by decide, by decide⟩

/-- Witness for C8: the scalar input `" a ,"` yields the piece `"a"`,
which is non-empty. -/
theorem C8_witness : strB "a" ≠ ([] : PyStr) :=
  C8_list_coercion.2 (.jstr (strB " a ,")) (strB "a")
    (fun xs h => JVal.noConfusion h) (fun h => JVal.noConfusion h) (by decide)

theorem pySplitWs_nil : pySplitWs [] = [] := rfl

theorem chapterBodyWc_eq (ch : JObj) : chapterBodyWc ch = bodySpecTokens ch := by
  unfold chapterBodyWc bodySpecTokens
  cases hb : objLookup ch (strB "body") with
  | none => simp [objGetD, hb, pyTruthy, pySplitWs_nil]
  | some v =>
    cases v with
    | jstr s => cases s <;> simp [objGetD, hb, pyTruthy, pySplitWs, splitWsGo]
    | jnull => simp [objGetD, hb, pyTruthy, pySplitWs_nil]
    | jbool b => cases b <;> simp [objGetD, hb, pyTruthy, pySplitWs_nil]
    | jint n => by_cases hn : n = 0 <;> simp [objGetD, hb, pyTruthy, hn, pySplitWs_nil]
    | jarr xs => cases xs <;> simp [objGetD, hb, pyTruthy, pySplitWs_nil]
    | jobj kvs => cases kvs <;> simp [objGetD, hb, pyTruthy, pySplitWs_nil]

theorem chapterWc_eq (ch : JObj) : chapterWc ch = wcSpecChapter ch := by
  unfold chapterWc wcSpecChapter
  cases hw : objLookup ch (strB "word_count") with
  | none => simp [objGetD, hw, isJNull, chapterBodyWc_eq]
  | some v => cases v <;> simp [objGetD, hw, isJNull, chapterBodyWc_eq]

theorem totalWcFold_acc (chs : List JObj) :
    ∀ a : Int, List.foldl (fun acc ch => acc + chapterWc ch) a chs
      = a + (chs.map wcSpecChapter).sum := by
  induction chs with
  | nil => intro a; simp
  | cons ch t ih =>
    intro a
    rw [List.foldl_cons, ih, chapterWc_eq]
    simp [add_assoc]

theorem totalWcFold_eq (chs : List JObj) :
    totalWcFold chs = (chs.map wcSpecChapter).sum := by
  simpa using totalWcFold_acc chs 0

theorem objLookup_nbTitle_ne (b : JObj) (k : PyStr) (h : k ≠ strB "title") :
    objLookup (nbTitle b) k = objLookup b k := by
  unfold nbTitle
  rw [objLookup_objSet_ne _ _ _ _ h]

theorem objLookup_nbAuthor_ne (b : JObj) (k : PyStr) (h : k ≠ strB "author") :
    objLookup (nbAuthor b) k = objLookup b k := by
  unfold nbAuthor
  rw [objLookup_objSet_ne _ _ _ _ h]

theorem objLookup_nbSubtitle_ne (b : JObj) (k : PyStr) (h : k ≠ strB "subtitle") :
    objLookup (nbSubtitle b) k = objLookup b k := by
  unfold nbSubtitle
  split_ifs <;> simp [objLookup_objSet_ne _ _ _ _ h]

theorem objLookup_nbDescription_ne (b : JObj) (k : PyStr) (h : k ≠ strB "description") :
    objLookup (nbDescription b) k = objLookup b k := by
  unfold nbDescription
  split_ifs <;> simp [objLookup_objSet_ne _ _ _ _ h]

theorem objLookup_nbGenre_ne (b : JObj) (k : PyStr) (h : k ≠ strB "genre") :
    objLookup (nbGenre b) k = objLookup b k := by
  unfold nbGenre
  rw [objLookup_objSet_ne _ _ _ _ h]

theorem objLookup_nbPublished_ne (b : JObj) (k : PyStr)
    (h1 : k ≠ strB "publication_date") (h2 : k ≠ strB "published_date") :
    objLookup (nbPublished b) k = objLookup b k := by
  unfold nbPublished
  split_ifs <;> simp [objLookup_objSet_ne _ _ _ _ h1, objLookup_objDel_ne _ _ _ h2]

theorem objLookup_nbTags_ne (b : JObj) (k : PyStr) (h : k ≠ strB "tags") :
    objLookup (nbTags b) k = objLookup b k := by
  unfold nbTags
  rw [objLookup_objSet_ne _ _ _ _ h]

theorem objLookup_nb_base_ne (book : JObj) (k : PyStr)
    (h1 : k ≠ strB "title") (h2 : k ≠ strB "author") (h3 : k ≠ strB "subtitle")
    (h4 : k ≠ strB "description") (h5 : k ≠ strB "genre")
    (h6 : k ≠ strB "published_date") (h7 : k ≠ strB "publication_date")
    (h8 : k ≠ strB "tags") :
    objLookup (normalize_book_base book) k = objLookup book k := by
  unfold normalize_book_base
  rw [objLookup_nbTags_ne _ _ h8, objLookup_nbPublished_ne _ _ h7 h6,
    objLookup_nbGenre_ne _ _ h5, objLookup_nbDescription_ne _ _ h4,
    objLookup_nbSubtitle_ne _ _ h3, objLookup_nbAuthor_ne _ _ h2,
    objLookup_nbTitle_ne _ _ h1]

/-- C4, amended: for a non-empty normalized chapter list the Book
Normalizer stores `total_chapters` = the chapter count and
`total_word_count` = the sum over chapters of the explicit `word_count`
when present, non-null and integer-coercible, of the body's
whitespace-token count when `word_count` is absent or null, and of
nothing (0) when `word_count` is present but not integer-coercible (the
claim's "otherwise the body count" fails there); a zero sum is stored as
`null`.  For an empty chapter list neither aggregate is touched. -/
theorem C4_aggregates (book : JObj) (chapters : List JObj) :
    (chapters ≠ [] →
      objLookup (normalize_book book chapters) (strB "total_chapters")
          = some (.jint (chapters.length : Int)) ∧
      objLookup (normalize_book book chapters) (strB "total_word_count")
          = some (totalWcSpec chapters)) ∧
    (chapters = [] →
      objLookup (normalize_book book chapters) (strB "total_chapters")
          = objLookup book (strB "total_chapters") ∧
      objLookup (normalize_book book chapters) (strB "total_word_count")
          = objLookup book (strB "total_word_count")) := by
  constructor
  · intro hne
    have hee : chapters.isEmpty = false := by
      cases chapters with
      | nil => exact absurd rfl hne
      | cons a b => rfl
    unfold normalize_book
    rw [hee]
    simp only [Bool.false_eq_true, if_false]
    constructor
    · rw [objLookup_objSet_ne _ _ _ _ (by decide), objLookup_objSet_self]
    · rw [objLookup_objSet_self, totalWcFold_eq]
      unfold totalWcSpec
      by_cases hz : (chapters.map wcSpecChapter).sum = 0 <;> simp [hz]
  · intro he
    subst he
    unfold normalize_book
    simp only [List.isEmpty_nil, if_true]
    exact ⟨objLookup_nb_base_ne book _ (by decide) (by decide) (by decide) (by decide)
        (by decide) (by decide) (by decide) (by decide),
      objLookup_nb_base_ne book _ (by decide) (by decide) (by decide) (by decide)
        (by decide) (by decide) (by decide) (by decide)⟩

/-- Witness for C4 at the claim's own example: chapters
`[{body: "a b c"}, {body: "d e", word_count: 9}]` give
`total_word_count` = 12. -/
theorem C4_witness :
    objLookup (normalize_book .nil
        [objOf [(strB "body", .jstr (strB "a b c"))],
         objOf [(strB "body", .jstr (strB "d e")), (strB "word_count", .jint 9)]])
      (strB "total_word_count") = some (.jint 12) := by
  have h := (C4_aggregates .nil
    [objOf [(strB "body", .jstr (strB "a b c"))],
     objOf [(strB "body", .jstr (strB "d e")), (strB "word_count", .jint 9)]]).1
    (by decide)
  rw [h.2]
  decide

/-- C4, counterexample to the claim as stated: a chapter whose explicit
`word_count` is the non-coercible string `"x"` contributes nothing — not
its body's 3 tokens — so the total is 0 and stored as `null`, where the
claim predicts 3. -/
theorem C4_counterexample :
    objLookup (normalize_book .nil
        [objOf [(strB "body", .jstr (strB "a b c")), (strB "word_count", .jstr (strB "x"))]])
      (strB "total_word_count") = some .jnull := by
  decide

theorem transform_chapter_aborts (v : JVal) (h : abortingChapterElem v = true) :
    transform_chapter v = .error .chapterError := by
  cases v with
  | jnull => rfl
  | jbool b => rfl
  | jint n => rfl
  | jstr s =>
    cases s with
    | nil => simp [abortingChapterElem] at h
    | cons c r => rfl
  | jarr xs => simp [abortingChapterElem] at h
  | jobj kvs => simp [abortingChapterElem] at h

theorem pyDictFromPairs_error (acc : JObj) (xs : JArr) (e : PipeErr)
    (h : pyDictFromPairs acc xs = .error e) : e = .chapterError := by
  induction xs using arrInduction generalizing acc with
  | hnil => simp [pyDictFromPairs] at h
  | hcons x t ih =>
    unfold pyDictFromPairs at h
    cases hp : pyDictPairOf x with
    | some kv =>
      rw [hp] at h
      exact ih _ h
    | none =>
      rw [hp] at h
      cases h
      rfl

theorem transform_chapter_error (v : JVal) (e : PipeErr)
    (h : transform_chapter v = .error e) : e = .chapterError := by
  unfold transform_chapter at h
  cases hd : pyDict v with
  | ok o => rw [hd] at h; cases h
  | error e2 =>
    rw [hd] at h
    cases h
    cases v with
    | jarr xs => exact pyDictFromPairs_error _ _ _ hd
    | jstr s =>
      cases s with
      | nil => cases hd
      | cons c r => cases hd; rfl
    | jnull => cases hd; rfl
    | jbool b => cases hd; rfl
    | jint n => cases hd; rfl
    | jobj kvs => cases hd

theorem mapChapters_error_of_mem (xs : JArr) (e : JVal) (h1 : e ∈ arrList xs)
    (h2 : transform_chapter e = .error .chapterError) :
    mapChapters xs = .error .chapterError := by
  induction xs using arrInduction with
  | hnil => simp [arrList] at h1
  | hcons x t ih =>
    simp [arrList] at h1
    rcases h1 with h1 | h1
    · subst h1
      simp only [mapChapters, h2]
      rfl
    · cases hx : transform_chapter x with
      | error e2 =>
        have := transform_chapter_error x e2 hx
        subst this
        simp only [mapChapters, hx]
        rfl
      | ok c =>
        simp only [mapChapters, hx, ih h1]
        rfl

/-- C10, amended: if the discovered top-level chapters list contains an
element whose sanitized form is null, a boolean, a number, or a non-empty
string, then `dict(ch)` raises in the Chapter Normalizer and the whole
pipeline run aborts with no output even though the root value was a valid
mapping; an empty-string element (and an empty or pair-shaped list) is
dict-constructible and does not abort. -/
theorem C10_bad_chapter_aborts (data : List Nat) (kvs : JObj) (xs : JArr) (e : JVal)
    (h1 : loadStage data = .ok (.jobj kvs))
    (h2 : objLookup kvs (strB "chapters") = some (.jarr xs))
    (h3 : e ∈ arrList xs)
    (h4 : abortingChapterElem (sanitize_strings e) = true) :
    pipeline_main data = .error .chapterError := by
  unfold pipeline_main
  rw [h1]
  show processRaw (.jobj kvs) = .error .chapterError
  have hc : objLookup (sanitizeO kvs) (strB "chapters")
      = some (.jarr (sanitizeA xs)) := by
    rw [objLookup_sanitizeO, h2]
    rfl
  have hmem : sanitize_strings e ∈ arrList (sanitizeA xs) := mem_arrList_sanitizeA xs e h3
  have hfail : mapChapters (sanitizeA xs) = .error .chapterError :=
    mapChapters_error_of_mem _ _ hmem (transform_chapter_aborts _ h4)
  have hdisc : discoverChapters (sanitizeO kvs) = .error .chapterError := by
    unfold discoverChapters
    rw [hc]
    exact hfail
  show (do
      let chapters ← discoverChapters (sanitizeO kvs)
      pure (JVal.jobj (assemble (sanitizeO kvs) chapters)) : Except PipeErr JVal)
    = .error .chapterError
  rw [hdisc]
  rfl

/-- Witness for C10: the input bytes of the JSON text with a numeric
chapters element abort with the chapter-construction error. -/
theorem C10_witness :
    pipeline_main (strB "\x7b\x22chapters\x22: [5]\x7d") = .error .chapterError :=
  C10_bad_chapter_aborts (strB "\x7b\x22chapters\x22: [5]\x7d")
    (objOf [(strB "chapters", .jarr (arrOf [.jint 5]))]) (arrOf [.jint 5]) (.jint 5)
    (by decide) (by decide) (by decide) (by decide)

/-- C10, counterexample to the claim as stated: a bare-string chapters
element — the empty string, one of the claim's own example shapes — does
not raise: `dict("")` is the empty dict and the run completes with
output. -/
theorem C10_counterexample :
    pipeline_main (strB "\x7b\x22chapters\x22: [\x22\x22]\x7d")
      = .ok (.jobj (objOf
          [(strB "chapters", .jarr (arrOf [.jobj (objOf
              [(strB "order", .jint 0), (strB "slug", .jstr (strB "chapter-0")),
               (strB "title", .jstr (strB "Chapter 0")), (strB "summary", .jstr []),
               (strB "tags", .jarr .nil), (strB "themes", .jarr .nil),
               (strB "body", .jstr [])])])),
           (strB "book", .jobj (objOf
              [(strB "title", .jstr (strB "Sacred Circuits: The Odyssey")),
               (strB "author", .jstr (strB "Unknown")),
               (strB "genre", .jarr .nil), (strB "tags", .jarr .nil),
               (strB "total_chapters", .jint 1),
               (strB "total_word_count", .jnull)])),
           (strB "ready_for_import", .jbool true),
           (strB "manifest_version", .jstr (strB "1.0"))])) := by
  decide

/-! ## Claim C3 — the error kinds that terminate the pipeline -/

/-- C3, amended: the two claimed error kinds behave as described — a
structural-parse failure whose single control-strip retry also fails
terminates the run with `ManifestUnrecoverable` carrying the retry
parse's failure position and no output, and a non-mapping root terminates
it with `ManifestShapeError` and no output — but they are not the only
kinds: every terminating error is one of `ManifestUnrecoverable`, the
shape error, the chapter-construction error of C10, or an undecodable-
bytes `UnicodeDecodeError` (which the retry handler does not catch). -/
theorem C3_error_kinds :
    (∀ (data : List Nat) (p q : Nat),
        json_loads (escape_newlines_inside_strings (preclean_bytes data))
            = .error (.decode p) →
        json_loads (ctrlStrip (escape_newlines_inside_strings (preclean_bytes data)))
            = .error (.decode q) →
        pipeline_main data = .error (.unrecoverable q)) ∧
    (∀ (data : List Nat) (v : JVal),
        loadStage data = .ok v → (∀ kvs, v ≠ .jobj kvs) →
        pipeline_main data = .error .shapeError) ∧
    (∀ (data : List Nat) (e : PipeErr), pipeline_main data = .error e →
        (∃ q, e = .unrecoverable q) ∨ e = .shapeError ∨ e = .chapterError ∨
          ∃ q, e = .unicodeError q) := by
  refine ⟨?_, ?_, ?_⟩
  · intro data p q hp hq
    unfold pipeline_main loadStage loadWithRetry
    rw [hp, hq]
  · intro data v h1 h2
    unfold pipeline_main
    rw [h1]
    show processRaw v = .error .shapeError
    unfold processRaw
    cases v with
    | jobj kvs => exact absurd rfl (h2 kvs)
    | jnull => rfl
    | jbool b => rfl
    | jint n => rfl
    | jstr s => rfl
    | jarr xs => rfl
  · intro data e _
    cases e with
    | unicodeError q => exact .inr (.inr (.inr ⟨q, rfl⟩))
    | unrecoverable q => exact .inl ⟨q, rfl⟩
    | shapeError => exact .inr (.inl rfl)
    | chapterError => exact .inr (.inr (.inl rfl))

/-- Witness for C3: the input `nope` fails strict parsing at position 0,
fails again after the retry strip, and the pipeline terminates with
`ManifestUnrecoverable` at that position. -/
theorem C3_witness :
    pipeline_main (strB "nope") = .error (.unrecoverable 0) :=
  C3_error_kinds.1 (strB "nope") 0 0 (by decide) (by decide)

/-- C3, counterexample to "exactly two error kinds": the chapters element
`5` aborts the run with the chapter-construction error, which is neither
`ManifestUnrecoverable` nor `ManifestShapeError`. -/
theorem C3_counterexample :
    pipeline_main (strB "\x7b\x22chapters\x22: [5]\x7d") = .error .chapterError ∧
    PipeErr.chapterError ≠ PipeErr.shapeError := by
  exact ⟨by decide, by decide⟩

/-! ## Claim C7 — surviving keys and defaults of the assembled manifest -/

theorem mem_of_contains (l : List PyStr) (k : PyStr) (h : l.contains k = true) :
    k ∈ l := by
  induction l with
  | nil => simp [List.contains] at h
  | cons a t ih =>
    simp [List.contains] at h ⊢
    rcases h with h | h
    · exact .inl h
    · exact .inr (ih (by simpa [List.contains] using h))

theorem objHas_objFilterKeys_false (p : PyStr → Bool) (o : JObj) (k : PyStr)
    (h : objHas o k = false) : objHas (objFilterKeys p o) k = false := by
  induction o using objInduction with
  | hnil => exact h
  | hcons k3 v3 t ih =>
    simp only [objHas, objLookup] at h
    by_cases h3 : k3 = k
    · simp [h3] at h
    · simp only [objLookup, h3, if_false] at h
      by_cases hp : p k3 <;>
        simp [objFilterKeys, hp, objHas, objLookup, h3] <;>
        simpa [objHas] using ih (by simpa [objHas] using h)

theorem assemble_shape (kvs : JObj) (chs : List JObj) :
    ∃ bv : JVal, assemble kvs chs =
      objSetDefault (objSetDefault (objFilterKeys (fun k => allowedTop.contains k)
          (objSet (objSet kvs (strB "book") bv) (strB "chapters")
            (.jarr (arrOf (chs.map JVal.jobj)))))
          (strB "ready_for_import") (.jbool true))
        (strB "manifest_version") (.jstr (strB "1.0")) := by
  unfold assemble
  cases objLookup kvs (strB "book") with
  | none => exact ⟨_, rfl⟩
  | some v => cases v <;> exact ⟨_, rfl⟩

theorem assemble_keys (kvs : JObj) (chs : List JObj) (k : PyStr)
    (h : k ∈ objKeys (assemble kvs chs)) : k ∈ allowedTop := by
  rcases assemble_shape kvs chs with ⟨bv, hs⟩
  rw [hs] at h
  rcases mem_objKeys_objSetDefault _ _ _ _ h with h | h
  · rcases mem_objKeys_objSetDefault _ _ _ _ h with h | h
    · exact mem_of_contains _ _ (mem_objKeys_objFilterKeys _ _ _ h).1
    · subst h
      decide
  · subst h
    decide

theorem assemble_default (kvs : JObj) (chs : List JObj) (k : PyStr) (dv : JVal)
    (hk : k = strB "ready_for_import" ∨ k = strB "manifest_version")
    (hdv : (k = strB "ready_for_import" → dv = .jbool true) ∧
      (k = strB "manifest_version" → dv = .jstr (strB "1.0")))
    (h : objHas kvs k = false) :
    objLookup (assemble kvs chs) k = some dv := by
  rcases assemble_shape kvs chs with ⟨bv, hs⟩
  rw [hs]
  have h1 : objHas (objSet kvs (strB "book") bv) k = false := by
    rcases hk with hk | hk <;> subst hk <;>
      rw [objHas_objSet_ne _ _ _ _ (by decide)] <;> exact h
  have h2 : objHas (objSet (objSet kvs (strB "book") bv) (strB "chapters")
      (.jarr (arrOf (chs.map JVal.jobj)))) k = false := by
    rcases hk with hk | hk <;> subst hk <;>
      rw [objHas_objSet_ne _ _ _ _ (by decide)] <;> exact h1
  have h3 := objHas_objFilterKeys_false (fun k => allowedTop.contains k) _ k h2
  rcases hk with hk | hk
  · subst hk
    rw [objLookup_objSetDefault_ne _ _ _ _ (by decide),
      objLookup_objSetDefault_absent _ _ _ h3, (hdv.1 rfl)]
  · subst hk
    have h4 : objHas (objSetDefault (objFilterKeys (fun k => allowedTop.contains k)
        (objSet (objSet kvs (strB "book") bv) (strB "chapters")
          (.jarr (arrOf (chs.map JVal.jobj)))))
        (strB "ready_for_import") (.jbool true)) (strB "manifest_version") = false := by
      rw [objHas_objSetDefault_ne _ _ _ _ (by decide)]
      exact h3
    rw [objLookup_objSetDefault_absent _ _ _ h4, (hdv.2 rfl)]

/-- C7: for every raw manifest mapping on which processing succeeds, the
assembled output contains only the six allowed top-level keys — every
other top-level key of the raw input is dropped — and when absent from
the raw input, `ready_for_import` defaults to `true` and
`manifest_version` defaults to `"1.0"`. -/
theorem C7_pruning_and_defaults (kvs : JObj) (m : JVal)
    (h : processRaw (.jobj kvs) = .ok m) :
    ∃ mkvs, m = .jobj mkvs ∧
      (∀ k ∈ objKeys mkvs, k ∈ allowedTop) ∧
      (objHas kvs (strB "ready_for_import") = false →
        objLookup mkvs (strB "ready_for_import") = some (.jbool true)) ∧
      (objHas kvs (strB "manifest_version") = false →
        objLookup mkvs (strB "manifest_version") = some (.jstr (strB "1.0"))) := by
  have h2 : (do
      let chapters ← discoverChapters (sanitizeO kvs)
      pure (JVal.jobj (assemble (sanitizeO kvs) chapters)) : Except PipeErr JVal)
      = .ok m := h
  cases hd : discoverChapters (sanitizeO kvs) with
  | error e =>
    rw [hd] at h2
    simp at h2
  | ok chs =>
    rw [hd] at h2
    simp only [pure, Except.pure, Except.bind] at h2
    have hm : m = .jobj (assemble (sanitizeO kvs) chs) := by
      cases h2
      rfl
    refine ⟨assemble (sanitizeO kvs) chs, hm, ?_, ?_, ?_⟩
    · intro k hk
      exact assemble_keys _ _ _ hk
    · intro habs
      exact assemble_default _ _ _ _ (.inl rfl)
        ⟨fun _ => rfl, fun hx => absurd hx (by decide)⟩
        (by rw [objHas_sanitizeO]; exact habs)
    · intro habs
      exact assemble_default _ _ _ _ (.inr rfl)
        ⟨fun hx => absurd hx (by decide), fun _ => rfl⟩
        (by rw [objHas_sanitizeO]; exact habs)

/-- Witness for C7: the raw mapping with the extra key `notes` produces a
manifest with only the allowed keys and both defaults applied. -/
theorem C7_witness :
    ∃ mkvs, (.jobj (objOf
        [(strB "book", .jobj (objOf
            [(strB "title", .jstr (strB "Sacred Circuits: The Odyssey")),
             (strB "author", .jstr (strB "Unknown")),
             (strB "genre", .jarr .nil), (strB "tags", .jarr .nil)])),
         (strB "chapters", .jarr .nil),
         (strB "ready_for_import", .jbool true),
         (strB "manifest_version", .jstr (strB "1.0"))]) : JVal) = .jobj mkvs ∧
      (∀ k ∈ objKeys mkvs, k ∈ allowedTop) ∧
      (objHas (objOf [(strB "notes", .jstr (strB "draft"))]) (strB "ready_for_import") = false →
        objLookup mkvs (strB "ready_for_import") = some (.jbool true)) ∧
      (objHas (objOf [(strB "notes", .jstr (strB "draft"))]) (strB "manifest_version") = false →
        objLookup mkvs (strB "manifest_version") = some (.jstr (strB "1.0"))) :=
  C7_pruning_and_defaults (objOf [(strB "notes", .jstr (strB "draft"))]) _ (by decide)

theorem escLoop_eq_spec (data : List Nat) :
    ∀ inString escaped : Bool,
      escLoop inString escaped data = escSpecRun (escStateOf inString escaped) data := by
  induction data with
  | nil => intro i e; cases i <;> cases e <;> rfl
  | cons b rest ih =>
    intro i e
    cases i with
    | true =>
      cases e with
      | true => simpa [escLoop, escSpecRun, escSpecStep, escStateOf] using ih true false
      | false =>
        by_cases h92 : b == 92
        · simp [escLoop, escSpecRun, escSpecStep, escStateOf, h92, ih true true]
        · by_cases h34 : b == 34
          · simp [escLoop, escSpecRun, escSpecStep, escStateOf, h92, h34, ih false false]
          · by_cases h10 : b == 10
            · simp [escLoop, escSpecRun, escSpecStep, escStateOf, h92, h34, h10, ih true false]
            · by_cases h13 : b == 13 <;>
                simp [escLoop, escSpecRun, escSpecStep, escStateOf, h92, h34, h10, h13,
                  ih true false]
    | false =>
      by_cases h34 : b == 34
      · simp [escLoop, escSpecRun, escSpecStep, escStateOf, h34, ih true false]
      · cases e <;> simp [escLoop, escSpecRun, escSpecStep, escStateOf, h34, ih false true,
          ih false false]

/-- C2: the escaper behaves exactly as claimed — bytes outside string
literals (including raw newlines used as formatting whitespace) pass
unchanged, the byte after an active backslash passes unchanged, and a
bare LF or CR inside a string becomes backslash-`n` — and the claim's
example byte sequence escapes to valid JSON parsing to
`{"a": "line1\nline2"}`. -/
theorem C2_escaper :
    (∀ data : List Nat,
      escape_newlines_inside_strings data = escSpecRun .outside data) ∧
    escape_newlines_inside_strings (strB "\x7b\x22a\x22: \x22line1\nline2\x22\x7d")
      = strB "\x7b\x22a\x22: \x22line1\\nline2\x22\x7d" ∧
    json_loads (escape_newlines_inside_strings (strB "\x7b\x22a\x22: \x22line1\nline2\x22\x7d"))
      = .ok (.jobj (objOf [(strB "a", .jstr (strB "line1\nline2"))])) ∧
    escape_newlines_inside_strings (strB "\x7b\n\x22b\x22: 2,\n\x22c\x22: 3\x7d")
      = strB "\x7b\n\x22b\x22: 2,\n\x22c\x22: 3\x7d" := by
  refine ⟨?_, by decide, by decide, by decide⟩
  intro data
  exact escLoop_eq_spec data false false

/-! ## Claim C6 — composite-with-text flattening -/

/-- C6, amended: for a Content Block exposing both a scalar `text` and a
scalar `paragraph` field (and no `content`/`children` keys), the
flattener yields the string forms of BOTH fields — `text`'s first, then
`paragraph`'s — joined by a newline with empty fragments dropped; the
`paragraph` value does appear in the flattened result alongside `text`. -/
theorem C6_text_and_paragraph (kvs : JObj) (va vb : JVal) (sa sb : PyStr)
    (hta : objLookup kvs (strB "text") = some va) (hsa : scalarStrOf va = some sa)
    (htb : objLookup kvs (strB "paragraph") = some vb) (hsb : scalarStrOf vb = some sb)
    (hc : objLookup kvs (strB "content") = none)
    (hch : objLookup kvs (strB "children") = none) :
    extract_text_from_block (.jobj kvs) =
      joinWith [10] ([sa, sb].filter (fun p => !p.isEmpty)) := by
  unfold extract_text_from_block
  have hj : jcost (.jobj kvs) + 3 = (jcostO kvs + 3) + 1 := by
    simp [jcost]
    omega
  rw [hj]
  have hrest : extractMany (jcostO kvs + 3) [] = some [] := by
    have : jcostO kvs + 3 = (jcostO kvs + 2) + 1 := by omega
    rw [this]
    rfl
  have htp : textParts kvs = [sa, sb] := by
    unfold textParts
    rw [hta, htb]
    simp [hsa, hsb, Option.toList]
  simp only [extractMany, hc, hch, htp, hrest]
  simp [Option.bind]

/-- Witness for C6 at the concrete block with `text: "A"` and
`paragraph: "B"`. -/
theorem C6_witness :
    extract_text_from_block (.jobj (objOf
        [(strB "text", .jstr (strB "A")), (strB "paragraph", .jstr (strB "B"))])) =
      joinWith [10] ([strB "A", strB "B"].filter (fun p => !p.isEmpty)) :=
  C6_text_and_paragraph
    (objOf [(strB "text", .jstr (strB "A")), (strB "paragraph", .jstr (strB "B"))])
    (.jstr (strB "A")) (.jstr (strB "B")) (strB "A") (strB "B")
    (by decide) (by decide) (by decide) (by decide) (by decide) (by decide)

/-- C6, counterexample to the claim as stated: with both fields present
the flattener yields `"A\nB"`, not exactly one of them — the `paragraph`
value appears even though `text` is present. -/
theorem C6_counterexample :
    extract_text_from_block (.jobj (objOf
        [(strB "text", .jstr (strB "A")), (strB "paragraph", .jstr (strB "B"))]))
      = strB "A\nB" ∧
    strB "A\nB" ≠ strB "A" := by
  exact ⟨by decide, by decide⟩

theorem extractMany_cons (n : Nat) (b : JVal) (bs : List JVal) :
    extractMany (n + 1) (b :: bs) =
      (do
        let s ← extractOne n b
        let rest ← extractMany n bs
        some (s :: rest)) := by
  cases b <;> rfl

theorem jcost_pos (v : JVal) : 1 ≤ jcost v := by
  cases v <;> simp [jcost]

theorem jcostO_pos (kvs : JObj) : 1 ≤ jcostO kvs := by
  induction kvs using objInduction with
  | hnil => simp [jcostO]
  | hcons k v t ih => simp [jcostO]; omega

theorem listCost_pos (l : List JVal) : 1 ≤ listCost l := by
  cases l with
  | nil => simp [listCost]
  | cons b bs =>
    simp [listCost]
    omega

theorem listCost_arrList (xs : JArr) : listCost (arrList xs) = jcostA xs := by
  induction xs using arrInduction with
  | hnil => rfl
  | hcons x t ih => simp [arrList, listCost, jcostA, ih]

theorem listCost_filter_le (p : JVal → Bool) (l : List JVal) :
    listCost (l.filter p) ≤ listCost l := by
  induction l with
  | nil => simp
  | cons b bs ih =>
    by_cases hb : p b
    · simp [List.filter_cons, hb, listCost]
      omega
    · simp [List.filter_cons, hb, listCost]
      have := jcost_pos b
      omega

theorem objLookup_jcostO (kvs : JObj) (k : PyStr) (c : JVal)
    (h : objLookup kvs k = some c) : jcost c < jcostO kvs := by
  induction kvs using objInduction with
  | hnil => simp [objLookup] at h
  | hcons k3 v3 t ih =>
    by_cases h3 : k3 = k
    · simp [objLookup, h3] at h
      subst h
      simp [jcostO]
      have := jcostO_pos t
      omega
    · simp [objLookup, h3] at h
      have := ih h
      simp [jcostO]
      have := jcost_pos v3
      omega

theorem extract_stable_aux : ∀ k : Nat,
    (∀ b n m, jcost b < k → jcost b < n → jcost b < m →
      extractOne n b = extractOne m b ∧ (extractOne n b).isSome) ∧
    (∀ l n m, listCost l ≤ k → listCost l < n → listCost l < m →
      extractMany n l = extractMany m l ∧ (extractMany n l).isSome) := by
  intro k
  induction k using Nat.strong_induction_on
  rename_i k IH
  have hone : ∀ b n m, jcost b < k → jcost b < n → jcost b < m →
      extractOne n b = extractOne m b ∧ (extractOne n b).isSome := by
    intro b n m hk hn hm
    cases b with
    | jnull => exact ⟨rfl, rfl⟩
    | jbool c => exact ⟨rfl, rfl⟩
    | jint m2 => exact ⟨rfl, rfl⟩
    | jstr s => exact ⟨rfl, rfl⟩
    | jarr xs =>
      have hck : jcost (JVal.jarr xs) = 1 + jcostA xs := rfl
      rw [hck] at hk hn hm
      have hxs : listCost (nonNullElems (arrList xs)) ≤ jcostA xs := by
        have h1 := listCost_filter_le (fun v => !isJNull v) (arrList xs)
        rw [listCost_arrList] at h1
        exact h1
      have hres := (IH (jcostA xs) (by omega)).2 (nonNullElems (arrList xs)) n m
        hxs (by omega) (by omega)
      obtain ⟨w, hw⟩ := Option.isSome_iff_exists.mp hres.2
      have hwm : extractMany m (nonNullElems (arrList xs)) = some w := hres.1.symm.trans hw
      constructor
      · simp only [extractOne, hw, hwm]
      · simp only [extractOne, hw]
        rfl
    | jobj kvs =>
      have hck : jcost (JVal.jobj kvs) = 1 + jcostO kvs := rfl
      rw [hck] at hk hn hm
      have hIH2 := (IH (1 + jcostO kvs) (by omega)).2
      have hcp : contentPart n kvs = contentPart m kvs ∧ (contentPart n kvs).isSome := by
        unfold contentPart
        cases hc : objLookup kvs (strB "content") with
        | none => exact ⟨rfl, rfl⟩
        | some c =>
          have hjc : jcost c < jcostO kvs := objLookup_jcostO kvs _ c hc
          cases c with
          | jnull => exact ⟨rfl, rfl⟩
          | jarr xs =>
            have hjx : jcost (JVal.jarr xs) = 1 + jcostA xs := rfl
            rw [hjx] at hjc
            exact hIH2 (arrList xs) n m (by rw [listCost_arrList]; omega)
              (by rw [listCost_arrList]; omega) (by rw [listCost_arrList]; omega)
          | jstr s2 =>
            have hl : listCost [JVal.jstr s2] = 3 := rfl
            exact hIH2 [JVal.jstr s2] n m (by rw [hl]; have := jcost_pos (JVal.jstr s2); simp [jcost] at hjc ⊢; omega)
              (by rw [hl]; simp [jcost] at hjc; omega) (by rw [hl]; simp [jcost] at hjc; omega)
          | jint m2 =>
            have hl : listCost [JVal.jint m2] = 3 := rfl
            exact hIH2 [JVal.jint m2] n m (by rw [hl]; simp [jcost] at hjc; omega)
              (by rw [hl]; simp [jcost] at hjc; omega) (by rw [hl]; simp [jcost] at hjc; omega)
          | jbool c2 =>
            have hl : listCost [JVal.jbool c2] = 3 := rfl
            exact hIH2 [JVal.jbool c2] n m (by rw [hl]; simp [jcost] at hjc; omega)
              (by rw [hl]; simp [jcost] at hjc; omega) (by rw [hl]; simp [jcost] at hjc; omega)
          | jobj kvs2 =>
            have hl : listCost [JVal.jobj kvs2] = 1 + jcost (JVal.jobj kvs2) + 1 := rfl
            exact hIH2 [JVal.jobj kvs2] n m (by rw [hl]; omega)
              (by rw [hl]; omega) (by rw [hl]; omega)
      have hdp : childrenPart n kvs = childrenPart m kvs ∧ (childrenPart n kvs).isSome := by
        unfold childrenPart
        cases hc : objLookup kvs (strB "children") with
        | none => exact ⟨rfl, rfl⟩
        | some c =>
          have hjc : jcost c < jcostO kvs := objLookup_jcostO kvs _ c hc
          cases c with
          | jarr xs =>
            have hjx : jcost (JVal.jarr xs) = 1 + jcostA xs := rfl
            rw [hjx] at hjc
            exact hIH2 (arrList xs) n m (by rw [listCost_arrList]; omega)
              (by rw [listCost_arrList]; omega) (by rw [listCost_arrList]; omega)
          | jnull => exact ⟨rfl, rfl⟩
          | jbool c2 => exact ⟨rfl, rfl⟩
          | jint m2 => exact ⟨rfl, rfl⟩
          | jstr s2 => exact ⟨rfl, rfl⟩
          | jobj kvs2 => exact ⟨rfl, rfl⟩
      obtain ⟨CP, hCP⟩ := Option.isSome_iff_exists.mp hcp.2
      obtain ⟨DP, hDP⟩ := Option.isSome_iff_exists.mp hdp.2
      have hCPm : contentPart m kvs = some CP := hcp.1.symm.trans hCP
      have hDPm : childrenPart m kvs = some DP := hdp.1.symm.trans hDP
      constructor
      · simp only [extractOne, hCP, hDP, hCPm, hDPm]
      · simp only [extractOne, hCP, hDP]
        rfl
  refine ⟨hone, ?_⟩
  intro l
  induction l with
  | nil =>
    intro n m h1 hn hm
    obtain ⟨n2, rfl⟩ : ∃ n2, n = n2 + 1 := ⟨n - 1, by omega⟩
    obtain ⟨m2, rfl⟩ : ∃ m2, m = m2 + 1 := ⟨m - 1, by omega⟩
    exact ⟨rfl, rfl⟩
  | cons b bs ihl =>
    intro n m h1 hn hm
    have hlc : listCost (b :: bs) = 1 + jcost b + listCost bs := rfl
    have hbs1 := listCost_pos bs
    obtain ⟨n2, rfl⟩ : ∃ n2, n = n2 + 1 := ⟨n - 1, by omega⟩
    obtain ⟨m2, rfl⟩ : ∃ m2, m = m2 + 1 := ⟨m - 1, by omega⟩
    rw [hlc] at h1 hn hm
    have hO := hone b n2 m2 (by omega) (by omega) (by omega)
    have hL := ihl n2 m2 (by omega) (by omega) (by omega)
    obtain ⟨s, hs⟩ := Option.isSome_iff_exists.mp hO.2
    obtain ⟨r, hr⟩ := Option.isSome_iff_exists.mp hL.2
    have hsm : extractOne m2 b = some s := hO.1.symm.trans hs
    have hrm : extractMany m2 bs = some r := hL.1.symm.trans hr
    rw [extractMany_cons, extractMany_cons]
    constructor
    · rw [hs, hsm, hr, hrm]
    · rw [hs, hr]
      rfl

theorem extractMany_canonical (l : List JVal) (n : Nat) (h : listCost l < n) :
    extractMany n l = extractMany (listCost l + 1) l ∧ (extractMany n l).isSome :=
  (extract_stable_aux (listCost l)).2 l n (listCost l + 1) le_rfl h (by omega)

theorem extractMany_length : ∀ (n : Nat) (l : List JVal) (r : List PyStr),
    extractMany n l = some r → r.length = l.length := by
  intro n
  induction n with
  | zero =>
    intro l r h
    cases h
  | succ n2 ih =>
    intro l r h
    cases l with
    | nil =>
      cases h
      rfl
    | cons b bs =>
      rw [extractMany_cons] at h
      cases ho : extractOne n2 b with
      | none => rw [ho] at h; cases h
      | some s =>
        rw [ho] at h
        cases hr : extractMany n2 bs with
        | none =>
          rw [hr] at h
          cases h
        | some rest =>
          rw [hr] at h
          have h2 : (s :: rest : List PyStr) = r := by
            cases h
            rfl
          subst h2
          simp [ih bs rest hr]

/-- C9: Content-Block flattening is total — for every input value of
every variant, the flattening recursion terminates within a stack depth
bounded by the block's size, is independent of any larger fuel, and
returns a string (possibly empty): at any fuel above `jcost b + 2` it
yields exactly the (always-defined) `extract_text_from_block b`, never an
error. -/
theorem C9_flatten_total (b : JVal) (n : Nat) (h : jcost b + 2 < n) :
    extractMany n [b] = some [extract_text_from_block b] := by
  have hl : listCost [b] = 1 + jcost b + 1 := rfl
  have hcan := extractMany_canonical [b] n (by omega)
  obtain ⟨r, hr⟩ := Option.isSome_iff_exists.mp hcan.2
  have hlen := extractMany_length n [b] r hr
  cases r with
  | nil => simp at hlen
  | cons s rest =>
    cases rest with
    | cons s2 r2 => simp at hlen
    | nil =>
      have hfuel : listCost [b] + 1 = jcost b + 3 := by omega
      have hcan2 : extractMany (jcost b + 3) [b] = some [s] := by
        rw [← hfuel, ← hcan.1]
        exact hr
      have hext : extract_text_from_block b = s := by
        unfold extract_text_from_block
        rw [hcan2]
        rfl
      rw [hr, hext]

/-- Witness for C9 at a concrete nested block (a dict whose `content`
holds a mixed-type list) and fuel 50. -/
theorem C9_witness :
    extractMany 50 [.jobj (objOf [(strB "content",
        .jarr (arrOf [.jstr (strB "x"), .jnull, .jint 7]))])]
      = some [extract_text_from_block (.jobj (objOf [(strB "content",
          .jarr (arrOf [.jstr (strB "x"), .jnull, .jint 7]))]))] :=
  C9_flatten_total (.jobj (objOf [(strB "content",
    .jarr (arrOf [.jstr (strB "x"), .jnull, .jint 7]))])) 50 (by decide)

set_option maxRecDepth 40000 in
/-- C1 (code bug): the pipeline is not idempotent on its own serialized
output.  On the failing input the first run succeeds and emits the
chapter body `" "` (the whitespace-only flattened content is kept because
only its truthiness is checked); the re-fed run rejects that body with
`ch["body"].strip()` and flattens nothing, emitting `""` — so the second
canonical manifest differs from the first, where the spec requires a
byte-identical result. -/
theorem C1_not_idempotent :
    bodyOfRun c1RunOnce = some (strB " ") ∧
    bodyOfRun c1RunTwice = some (strB "") ∧
    c1RunTwice ≠ c1RunOnce := by
  exact ⟨by decide, by decide, by decide⟩
